import Mathlib

/-!
Verification of the event validation and normalization engine of the
incident-response-timeline ETL pipeline.

This file is a shallow embedding of the core pipeline:
  * `src/validation/validation_raw_events.py` (`validate_raw_event`)
  * `src/transform/schema_definitions.py` (record builders)
  * `src/transform/validate_transform.py` (`validate_transformation`)
  * the per-record loop of
    `src/transform/transform_security_events.py` (`run_transform_for_batch`)

Python values are modelled by `PyVal`, dictionaries by insertion-ordered
association lists (`PyRec`), exceptions by `PyErr` (class name + message)
carried in `Except`, and in-place mutation by explicit state passing: a
failing validation returns the error together with the state of the
mutated dictionary at raise time, exactly as the caller observes it.
Machine clock reads (`datetime.now`) are passed in as explicit integer
parameters (seconds since the Unix epoch of the UTC wall clock).
-/

/-- A Python runtime value, restricted to the shapes the pipeline touches:
strings, ints, bools, None, timezone-aware or naive datetimes (seconds
since epoch of the wall-clock reading plus an optional UTC offset in
seconds), lists and string-keyed dicts. -/
inductive PyVal where
  | str  (s : String)
  | int  (n : Int)
  | bool (b : Bool)
  | none
  | dt   (t : Int) (off : Option Int)
  | list (xs : List PyVal)
  | dict (entries : List (String × PyVal))

/-- A Python dict with string keys: insertion-ordered association list.
Well-formed dicts have pairwise-distinct keys. -/
abbrev PyRec := List (String × PyVal)

/-- A raised Python exception: class name (`type(e).__name__`) and message
(`str(e)`). -/
structure PyErr where
  ename : String
  emsg  : String
deriving DecidableEq

def pyValueError (m : String) : PyErr := ⟨"ValueError", m⟩

def pyAttributeError (m : String) : PyErr := ⟨"AttributeError", m⟩

def pyNameError (m : String) : PyErr := ⟨"NameError", m⟩

def pyKeyError (m : String) : PyErr := ⟨"KeyError", m⟩

/-- Python truthiness (`bool(x)`), as used by `if not x` and `x or y`. -/
def pyTruthy : PyVal → Bool
  | .str s  => !(s == "")
  | .int n  => !(n == 0)
  | .bool b => b
  | .none   => false
  | .dt _ _ => true
  | .list xs => !xs.isEmpty
  | .dict es => !es.isEmpty

/-- `x or y` in Python: `x` if truthy, else `y`. -/
def pyOr (x y : PyVal) : PyVal := if pyTruthy x then x else y

/-- Dict lookup `d[k]` / `d.get(k)` value part: first matching key. -/
def getVal : PyRec → String → Option PyVal
  | [], _ => Option.none
  | p :: r, k => if p.1 = k then some p.2 else getVal r k

/-- `k in d`. -/
def hasKey : PyRec → String → Bool
  | [], _ => false
  | p :: r, k => p.1 = k || hasKey r k

/-- `d.get(k)`: value or `None`. -/
def dictGet (r : PyRec) (k : String) : PyVal :=
  match getVal r k with
  | some v => v
  | Option.none => .none

/-- Replace the value of every entry with key `k` (for well-formed dicts
there is at most one). -/
def setValGo : PyRec → String → PyVal → PyRec
  | [], _, _ => []
  | p :: r, k, v => (if p.1 = k then (k, v) else p) :: setValGo r k v

/-- Dict assignment `d[k] = v`: update in place if the key exists, else
append (CPython dicts preserve insertion order). -/
def setVal (r : PyRec) (k : String) (v : PyVal) : PyRec :=
  if hasKey r k then setValGo r k v else r ++ [(k, v)]

/-! ### String primitives -/

/-- ASCII whitespace stripped by `str.strip()` (the Unicode-only space
characters do not occur in this pipeline's data). -/
def pyIsSpace (c : Char) : Bool :=
  c = ' ' || c = '\t' || c = '\n' || c = '\r' || c = '\x0b' || c = '\x0c'

/-- `str.strip()`: drop leading and trailing whitespace. -/
def pyStrip (s : String) : String :=
  ⟨((s.data.dropWhile pyIsSpace).reverse.dropWhile pyIsSpace).reverse⟩

/-- `str.lower()` (ASCII; all enum values in this pipeline are ASCII). -/
def pyLower (s : String) : String := ⟨s.data.map Char.toLower⟩

/-- A single-quote character, used by Python `repr` of strings and lists. -/
def squote : String := String.singleton (Char.ofNat 39)

/-- Python `repr` of a list of strings, as interpolated by f-strings:
`['a', 'b']`. -/
def pyStrListRepr (xs : List String) : String :=
  "[" ++ String.intercalate ", " (xs.map (fun s => squote ++ s ++ squote)) ++ "]"

def digitChar (d : Nat) : Char := Char.ofNat (48 + d)

/-- Decimal digits of `n`, most significant first (fuel-recursive; the fuel
`n+1` always suffices since a number has at most `n+1` digits). -/
def natReprAux : Nat → Nat → List Char
  | 0, _ => []
  | fuel + 1, n =>
    if n < 10 then [digitChar n]
    else natReprAux fuel (n / 10) ++ [digitChar (n % 10)]

/-- Decimal rendering of a natural, as `str(int)` produces it. -/
def natRepr (n : Nat) : String := ⟨natReprAux (n + 1) n⟩

/-- `str(i)` for a Python int. -/
def intRepr (i : Int) : String :=
  if i < 0 then "-" ++ natRepr i.natAbs else natRepr i.toNat

/-- Zero-padded two-digit field. -/
def pad2 (n : Nat) : String := (if n < 10 then "0" else "") ++ natRepr n

/-- Zero-padded four-digit year field. -/
def pad4 (n : Nat) : String :=
  (if n < 10 then "000" else if n < 100 then "00" else if n < 1000 then "0" else "")
    ++ natRepr n

/-! ### Proleptic Gregorian calendar (civil-days algorithms) -/

/-- Year/month/day from days since 1970-01-01. -/
def civilFromDays (z0 : Int) : Int × Nat × Nat :=
  let z := z0 + 719468
  let era : Int := (if 0 ≤ z then z else z - 146096).tdiv 146097
  let doe : Nat := (z - era * 146097).toNat
  let yoe : Nat := (doe - doe / 1460 + doe / 36524 - doe / 146096) / 365
  let y : Int := (yoe : Int) + era * 400
  let doy : Nat := doe - (365 * yoe + yoe / 4 - yoe / 100)
  let mp : Nat := (5 * doy + 2) / 153
  let d : Nat := doy - (153 * mp + 2) / 5 + 1
  let m : Nat := if mp < 10 then mp + 3 else mp - 9
  (if m ≤ 2 then y + 1 else y, m, d)

/-- Days since 1970-01-01 of a civil date. -/
def daysFromCivil (y : Int) (m d : Nat) : Int :=
  let y' : Int := if m ≤ 2 then y - 1 else y
  let era : Int := (if 0 ≤ y' then y' else y' - 399).tdiv 400
  let yoe : Nat := (y' - era * 400).toNat
  let mp : Nat := if 2 < m then m - 3 else m + 9
  let doy : Nat := (153 * mp + 2) / 5 + d - 1
  let doe : Nat := 365 * yoe + yoe / 4 - yoe / 100 + doy
  era * 146097 + (doe : Int) - 719468

def isLeapYear (y : Int) : Bool :=
  y % 4 == 0 && (y % 100 != 0 || y % 400 == 0)

def daysInMonth (y : Int) (m : Nat) : Nat :=
  if m = 2 then (if isLeapYear y then 29 else 28)
  else if m = 4 || m = 6 || m = 9 || m = 11 then 30
  else 31

/-- UTC offset suffix of `str(datetime)` / `datetime.isoformat()`:
empty for a naive value, `+HH:MM` / `-HH:MM` for an aware one. -/
def offsetSuffix : Option Int → String
  | Option.none => ""
  | some o =>
    (if o < 0 then "-" else "+")
      ++ pad2 (o.natAbs / 3600) ++ ":" ++ pad2 (o.natAbs % 3600 / 60)

/-- Render a wall-clock instant with the given date-time separator
(`'T'` for `isoformat()`, `' '` for `str(datetime)`); whole seconds only,
matching the values this pipeline constructs. -/
def renderDt (sep : String) (t : Int) (off : Option Int) : String :=
  let days := t.fdiv 86400
  let secs : Nat := (t - days * 86400).toNat
  let ymd := civilFromDays days
  let yStr := if ymd.1 < 0 then "-" ++ pad4 ymd.1.natAbs else pad4 ymd.1.toNat
  yStr ++ "-" ++ pad2 ymd.2.1 ++ "-" ++ pad2 ymd.2.2 ++ sep
    ++ pad2 (secs / 3600) ++ ":" ++ pad2 (secs % 3600 / 60) ++ ":" ++ pad2 (secs % 60)
    ++ offsetSuffix off

/-- `str(datetime)`: space-separated ISO form. -/
def dtStr (t : Int) (off : Option Int) : String := renderDt " " t off

/-- `datetime.isoformat()`: T-separated ISO form. -/
def dtIso (t : Int) (off : Option Int) : String := renderDt "T" t off

/-! ### Python `repr`/`str` of containers and `json.dumps`

CPython bounds these recursions by its recursion limit (RecursionError);
the constant fuel below models that limit, and the fuel-exhausted branch
models the raised RecursionError. No value in this development comes close
to that depth. -/

def pyFuel : Nat := 1000

/-- Sequence a list of optional strings (failure propagates, as an
exception would). -/
def seqOption : List (Option String) → Option (List String)
  | [] => some []
  | Option.none :: _ => Option.none
  | some v :: rest => (seqOption rest).map (fun l => v :: l)

/-- `repr(v)` (fuel-bounded, `Option.none` = RecursionError). String
values are rendered with single quotes as CPython does for strings
without embedded quotes. -/
def pyReprF : Nat → PyVal → Option String
  | 0, _ => Option.none
  | _ + 1, .str s => some (squote ++ s ++ squote)
  | _ + 1, .int n => some (intRepr n)
  | _ + 1, .bool b => some (if b then "True" else "False")
  | _ + 1, .none => some "None"
  | _ + 1, .dt t off => some (dtStr t off)
  | f + 1, .list xs =>
    (seqOption (xs.map (pyReprF f))).map
      (fun parts => "[" ++ String.intercalate ", " parts ++ "]")
  | f + 1, .dict es =>
    (seqOption (es.map (fun p =>
        (pyReprF f p.2).map (fun v => squote ++ p.1 ++ squote ++ ": " ++ v)))).map
      (fun parts => "\x7b" ++ String.intercalate ", " parts ++ "\x7d")

/-- `str(v)`: identity on strings, `str(int)`, `True/False`, `None`,
ISO-like rendering for datetimes, `repr` for containers. Total: the
RecursionError branch of container rendering (unreachable at this
pipeline's depths, and never applied to containers by the validator,
whose type checks precede every `str()` call) is mapped to `""`. -/
def pyStr : PyVal → String
  | .str s => s
  | .int n => intRepr n
  | .bool b => if b then "True" else "False"
  | .none => "None"
  | .dt t off => dtStr t off
  | .list xs => (pyReprF pyFuel (.list xs)).getD ""
  | .dict es => (pyReprF pyFuel (.dict es)).getD ""

/-- `json.dumps(v)` without a `default` hook: fails (TypeError) on
datetimes, and on fuel exhaustion (RecursionError); both surface as a
raised exception at the call site. -/
def jsonDumpsF : Nat → PyVal → Option String
  | 0, _ => Option.none
  | _ + 1, .str s => some ("\"" ++ s ++ "\"")
  | _ + 1, .int n => some (intRepr n)
  | _ + 1, .bool b => some (if b then "true" else "false")
  | _ + 1, .none => some "null"
  | _ + 1, .dt _ _ => Option.none
  | f + 1, .list xs =>
    (seqOption (xs.map (jsonDumpsF f))).map
      (fun parts => "[" ++ String.intercalate ", " parts ++ "]")
  | f + 1, .dict es =>
    (seqOption (es.map (fun p =>
        (jsonDumpsF f p.2).map (fun v => "\"" ++ p.1 ++ "\": " ++ v)))).map
      (fun parts => "\x7b" ++ String.intercalate ", " parts ++ "\x7d")

/-- `json.dumps(v)` (strict): `Option.none` models the raised exception. -/
def jsonDumpsStrict (v : PyVal) : Option String := jsonDumpsF pyFuel v

/-- `json.dumps(v, default=str)`: unknown types (here: datetimes) are
rendered through `str` instead of failing; only RecursionError remains. -/
def jsonDumpsDefF : Nat → PyVal → Option String
  | 0, _ => Option.none
  | _ + 1, .str s => some ("\"" ++ s ++ "\"")
  | _ + 1, .int n => some (intRepr n)
  | _ + 1, .bool b => some (if b then "true" else "false")
  | _ + 1, .none => some "null"
  | _ + 1, .dt t off => some ("\"" ++ dtStr t off ++ "\"")
  | f + 1, .list xs =>
    (seqOption (xs.map (jsonDumpsDefF f))).map
      (fun parts => "[" ++ String.intercalate ", " parts ++ "]")
  | f + 1, .dict es =>
    (seqOption (es.map (fun p =>
        (jsonDumpsDefF f p.2).map (fun v => "\"" ++ p.1 ++ "\": " ++ v)))).map
      (fun parts => "\x7b" ++ String.intercalate ", " parts ++ "\x7d")

/-- `json.dumps(v, default=str)` as used by `build_raw_security_log`. -/
def jsonDumpsDefaultStr (v : PyVal) : Option String := jsonDumpsDefF pyFuel v

/-- Scalar JSON-serializable values (strings, ints, bools, None); batches
whose records carry only such values never make the rejection handler's
strict `json.dumps` fail. -/
def isAtomic : PyVal → Bool
  | .str _ => true
  | .int _ => true
  | .bool _ => true
  | .none => true
  | _ => false

/-! ### `json.loads` validity (used only as a syntax check) -/

def skipWs (cs : List Char) : List Char :=
  cs.dropWhile (fun c => c = ' ' || c = '\t' || c = '\n' || c = '\r')

def isHexDigit (c : Char) : Bool :=
  c.isDigit || ('a' ≤ c && c ≤ 'f') || ('A' ≤ c && c ≤ 'F')

/-- Scan a JSON string body after the opening quote; returns the rest
after the closing quote. -/
def jsonStringRest : List Char → Option (List Char)
  | [] => Option.none
  | '"' :: rest => some rest
  | '\\' :: e :: rest =>
    if e = 'u' then
      match rest with
      | a :: b :: c :: d :: rest' =>
        if isHexDigit a && isHexDigit b && isHexDigit c && isHexDigit d then
          jsonStringRest rest'
        else Option.none
      | _ => Option.none
    else if e = '"' || e = '\\' || e = '/' || e = 'b' || e = 'f' || e = 'n' || e = 'r' || e = 't'
    then jsonStringRest rest
    else Option.none
  | c :: rest => if c.toNat < 32 then Option.none else jsonStringRest rest

def digits1 (cs : List Char) : Option (List Char) :=
  match cs with
  | c :: rest => if c.isDigit then some (rest.dropWhile Char.isDigit) else Option.none
  | [] => Option.none

/-- Scan a JSON number (after an optional leading minus has been checked
to be followed by a digit). -/
def jsonNumberRest (cs : List Char) : Option (List Char) := do
  let cs ← match cs with
    | '-' :: rest => digits1 rest
    | _ => digits1 cs
  let cs ← match cs with
    | '.' :: rest => digits1 rest
    | _ => some cs
  match cs with
  | e :: rest =>
    if e = 'e' || e = 'E' then
      match rest with
      | s :: rest' => if s = '+' || s = '-' then digits1 rest' else digits1 rest
      | [] => Option.none
    else some cs
  | [] => some cs

def startsWithChars : List Char → List Char → Option (List Char)
  | [], cs => some cs
  | p :: ps, c :: cs => if p = c then startsWithChars ps cs else Option.none
  | _ :: _, [] => Option.none

mutual

/-- One JSON value; fuel bounds nesting depth (each level consumes at
least one character, so `length + 1` fuel always suffices). -/
def jsonValRest : Nat → List Char → Option (List Char)
  | 0, _ => Option.none
  | fuel + 1, cs =>
    match skipWs cs with
    | '"' :: rest => jsonStringRest rest
    | '[' :: rest =>
      (match skipWs rest with
       | ']' :: rest' => some rest'
       | _ => jsonArrayItems fuel rest)
    | '\x7b' :: rest =>
      (match skipWs rest with
       | '\x7d' :: rest' => some rest'
       | _ => jsonObjectItems fuel rest)
    | 't' :: rest => startsWithChars ['r', 'u', 'e'] rest
    | 'f' :: rest => startsWithChars ['a', 'l', 's', 'e'] rest
    | 'n' :: rest => startsWithChars ['u', 'l', 'l'] rest
    | other => jsonNumberRest other

def jsonArrayItems : Nat → List Char → Option (List Char)
  | 0, _ => Option.none
  | fuel + 1, cs => do
    let rest ← jsonValRest fuel cs
    match skipWs rest with
    | ',' :: rest' => jsonArrayItems fuel rest'
    | ']' :: rest' => some rest'
    | _ => Option.none

def jsonObjectItems : Nat → List Char → Option (List Char)
  | 0, _ => Option.none
  | fuel + 1, cs => do
    let rest ←
      match skipWs cs with
      | '"' :: rest => jsonStringRest rest
      | _ => Option.none
    let rest ←
      match skipWs rest with
      | ':' :: rest' => some rest'
      | _ => Option.none
    let rest ← jsonValRest fuel rest
    match skipWs rest with
    | ',' :: rest' => jsonObjectItems fuel rest'
    | '\x7d' :: rest' => some rest'
    | _ => Option.none

end


/-- Does `json.loads(s)` succeed? -/
def jsonLoadsOk (s : String) : Bool :=
  match jsonValRest (s.length + 1) s.data with
  | some rest => (skipWs rest).isEmpty
  | Option.none => false

/-! ### `datetime.fromisoformat` (CPython 3.11+, extended ISO-8601)

Model of the colon-separated fragment of the grammar:
`YYYY-MM-DD[<sep>HH[:MM[:SS[.fff]]][offset]]` with `<sep>` any single
character, fractional seconds of any length (parsed, sub-second value not
tracked: every instant this pipeline constructs or checks is whole
seconds), and offset `Z`/`z` or `±HH[:MM[:SS[.fff]]]` with the field
ranges CPython enforces. -/

structure PDT where
  /-- Seconds since epoch of the wall-clock fields (offset *not* applied,
  matching the pipeline's later `replace(tzinfo=utc)`). -/
  wall : Int
  /-- Parsed UTC offset in seconds, if any. -/
  off  : Option Int
deriving DecidableEq

def readDigit (c : Char) : Option Nat :=
  if c.isDigit then some (c.toNat - 48) else Option.none

def read2 : List Char → Option (Nat × List Char)
  | a :: b :: rest => do
    let x ← readDigit a
    let y ← readDigit b
    pure (10 * x + y, rest)
  | _ => Option.none

def read4 : List Char → Option (Nat × List Char)
  | a :: b :: c :: d :: rest => do
    let w ← readDigit a
    let x ← readDigit b
    let y ← readDigit c
    let z ← readDigit d
    pure (1000 * w + 100 * x + 10 * y + z, rest)
  | _ => Option.none

def expectChar (e : Char) : List Char → Option (List Char)
  | c :: rest => if c = e then some rest else Option.none
  | [] => Option.none

/-- Optional fractional part `.ddd` / `,ddd` after a seconds field. -/
def readFrac : List Char → Option (List Char)
  | c :: rest =>
    if c = '.' || c = ',' then digits1 rest else some (c :: rest)
  | [] => some []

/-- `HH[:MM[:SS[.fff]]]` returning (hours, minutes, seconds, rest). -/
def parseTimeFields (cs : List Char) : Option (Nat × Nat × Nat × List Char) := do
  let (h, cs) ← read2 cs
  match cs with
  | ':' :: rest =>
    match read2 rest with
    | some (mi, cs2) =>
      match cs2 with
      | ':' :: rest2 =>
        match read2 rest2 with
        | some (sec, cs3) => do
          let cs4 ← readFrac cs3
          pure (h, mi, sec, cs4)
        | Option.none => Option.none
      | _ => pure (h, mi, 0, cs2)
    | Option.none => Option.none
  | _ => pure (h, 0, 0, cs)

/-- The offset tail: empty (naive), `Z`/`z`, or `±HH[:MM[:SS[.fff]]]`;
must consume the whole remainder. -/
def parseOffsetEnd (cs : List Char) : Option (Option Int) :=
  match cs with
  | [] => some Option.none
  | ['Z'] => some (some 0)
  | ['z'] => some (some 0)
  | sign :: rest =>
    if sign = '+' || sign = '-' then
      match parseTimeFields rest with
      | some (oh, om, osec, cs') =>
        if cs'.isEmpty && oh ≤ 23 && om ≤ 59 && osec ≤ 59 then
          let total : Int := (oh : Int) * 3600 + (om : Int) * 60 + (osec : Int)
          some (some (if sign = '-' then -total else total))
        else Option.none
      | Option.none => Option.none
    else Option.none

/-- `datetime.fromisoformat(s)`: `Option.none` models the raised
ValueError. -/
def fromIsoFormat (s : String) : Option PDT := do
  let cs := s.data
  let (y, cs) ← read4 cs
  let cs ← expectChar '-' cs
  let (mo, cs) ← read2 cs
  let cs ← expectChar '-' cs
  let (d, cs) ← read2 cs
  if 1 ≤ y && 1 ≤ mo && mo ≤ 12 && 1 ≤ d && d ≤ daysInMonth (y : Int) mo then
    match cs with
    | [] => pure ⟨daysFromCivil (y : Int) mo d * 86400, Option.none⟩
    | _ :: rest => do
      let (h, mi, sec, cs2) ← parseTimeFields rest
      if h ≤ 23 && mi ≤ 59 && sec ≤ 59 then
        let off ← parseOffsetEnd cs2
        pure ⟨daysFromCivil (y : Int) mo d * 86400 + (h : Int) * 3600 + (mi : Int) * 60 + (sec : Int), off⟩
      else Option.none
  else Option.none

/-! ### `validate_raw_event` (src/validation/validation_raw_events.py)

The source mutates `data` in place; every stage here threads the record
state explicitly, and each failure carries the state of the dict exactly
as the caller observes it after the exception. -/

def required_fields : List String :=
  ["event_id", "event_time", "source_ip", "destination_ip", "event_type",
   "severity", "message"]

def optional_string_fields : List String :=
  ["host", "device_id", "username", "application", "platform", "vendor"]

def allowed_severity : List String := ["low", "medium", "high", "critical"]

def allowed_event_types : List String :=
  ["unauthorized_login", "malware_detected", "port_scan", "brute_force",
   "policy_violation", "dns_tunnel_detected", "data_exfiltration",
   "unauthorized_access", "phishing_click", "firewall_block"]

/-- `data[k]`: KeyError when absent. -/
def getItem (r : PyRec) (k : String) : Except PyErr PyVal :=
  match getVal r k with
  | some v => .ok v
  | Option.none => .error (pyKeyError (squote ++ k ++ squote))

def isStr : PyVal → Bool
  | .str _ => true
  | _ => false

/-- Step 2: required-fields check; the message interpolates the Python
list of every missing field. -/
def checkRequired (r : PyRec) : Except PyErr Unit :=
  let missing := required_fields.filter (fun f => !(hasKey r f))
  if missing.isEmpty then .ok ()
  else .error (pyValueError ("Missing required fields " ++ pyStrListRepr missing))

/-- Step 3, one optional field: a present value must already be a `str`
(anything else — including `None` — raises); present strings are stripped
and lower-cased in place; an absent key is set to `None`. -/
def optStep (r : PyRec) (f : String) : Except (PyErr × PyRec) PyRec :=
  match getVal r f with
  | some (.str s) => .ok (setVal r f (.str (pyLower (pyStrip s))))
  | some _ => .error (pyValueError (f ++ " must be a string"), r)
  | Option.none => .ok (setVal r f .none)

def optPassGo : PyRec → List String → Except (PyErr × PyRec) PyRec
  | r, [] => .ok r
  | r, f :: fs =>
    match optStep r f with
    | .ok r' => optPassGo r' fs
    | .error e => .error e

/-- Step 3: the optional-field loop (fields processed in source order;
a failure leaves the fields already visited normalized). -/
def optPass (r : PyRec) : Except (PyErr × PyRec) PyRec :=
  optPassGo r optional_string_fields

/-- One `isinstance(_, str)` check of step 4. -/
def typeCheckStr (r : PyRec) (k msg : String) : Except PyErr Unit :=
  match getItem r k with
  | .error e => .error e
  | .ok v => if isStr v then .ok () else .error (pyValueError msg)

/-- Step 4 after the `event_time` check. -/
def typeChecksB (r : PyRec) : Except PyErr Unit :=
  match typeCheckStr r "source_ip" "source_ip must be a string" with
  | .error e => .error e
  | .ok _ =>
    match typeCheckStr r "destination_ip" "destination_ip must be a string" with
    | .error e => .error e
    | .ok _ =>
      match typeCheckStr r "event_type" "event_type must be a string" with
      | .error e => .error e
      | .ok _ =>
        match getItem r "severity" with
        | .error e => .error e
        | .ok v =>
          match v with
          | .str _ => typeCheckStr r "message" "message must be a string"
          | .int _ => typeCheckStr r "message" "message must be a string"
          | _ => .error (pyValueError "severity must be a string or integer")

/-- Step 4: primitive type checks on the required fields. -/
def typeChecks (r : PyRec) : Except PyErr Unit :=
  match typeCheckStr r "event_id" "event_id must be a string" with
  | .error e => .error e
  | .ok _ =>
    match getItem r "event_time" with
    | .error e => .error e
    | .ok v =>
      match v with
      | .str _ => typeChecksB r
      | .dt _ _ => typeChecksB r
      | _ => .error (pyValueError "event_time must be a string or datetime")

/-- Step 5: raw-payload validation. -/
def payloadCheck (r : PyRec) : Except PyErr Unit :=
  match getVal r "raw_payload" with
  | Option.none => .ok ()
  | some .none => .ok ()
  | some (.str s) =>
    if !(jsonLoadsOk s) then .error (pyValueError "raw_payload is not valid JSON")
    else if 50000 < s.length then .error (pyValueError "raw_payload is too large")
    else .ok ()
  | some v =>
    match jsonDumpsStrict v with
    | some _ =>
      if 50000 < (pyStr v).length then .error (pyValueError "raw_payload is too large")
      else .ok ()
    | Option.none => .error (pyValueError "raw_payload contains non-serializable data")

/-- One step-6 assignment `data[k] = tr(str(data[k]))`. -/
def normStep (r : PyRec) (k : String) (tr : String → String) :
    Except (PyErr × PyRec) PyRec :=
  match getVal r k with
  | some v => .ok (setVal r k (.str (tr (pyStr v))))
  | Option.none => .error (pyKeyError (squote ++ k ++ squote), r)

/-- Step 6: in-place normalization of the required fields (strip;
additionally lower-case for `event_type` and `severity`). -/
def normReq (r : PyRec) : Except (PyErr × PyRec) PyRec :=
  match normStep r "event_id" pyStrip with
  | .error e => .error e
  | .ok r =>
    match normStep r "event_time" pyStrip with
    | .error e => .error e
    | .ok r =>
      match normStep r "source_ip" pyStrip with
      | .error e => .error e
      | .ok r =>
        match normStep r "destination_ip" pyStrip with
        | .error e => .error e
        | .ok r =>
          match normStep r "event_type" (fun s => pyLower (pyStrip s)) with
          | .error e => .error e
          | .ok r =>
            match normStep r "severity" (fun s => pyLower (pyStrip s)) with
            | .error e => .error e
            | .ok r => normStep r "message" pyStrip

/-- One `if not data[k]` check of step 7. -/
def emptyCheck (r : PyRec) (k msg : String) : Except PyErr Unit :=
  match getItem r k with
  | .error e => .error e
  | .ok v => if pyTruthy v then .ok () else .error (pyValueError msg)

/-- Step 7: non-empty (truthiness) checks. -/
def emptyChecks (r : PyRec) : Except PyErr Unit :=
  match emptyCheck r "event_id" "event_id does NOT exist" with
  | .error e => .error e
  | .ok _ =>
    match emptyCheck r "event_time" "event_time does NOT exist" with
    | .error e => .error e
    | .ok _ =>
      match emptyCheck r "source_ip" "source_ip does NOT exist" with
      | .error e => .error e
      | .ok _ =>
        match emptyCheck r "destination_ip" "destination_ip does NOT exist" with
        | .error e => .error e
        | .ok _ =>
          match emptyCheck r "event_type" "event_type does NOT exist" with
          | .error e => .error e
          | .ok _ =>
            match emptyCheck r "severity" "severity does NOT exist" with
            | .error e => .error e
            | .ok _ => emptyCheck r "message" "message does NOT exist"

/-- `raw_ts.replace("Z", "+00:00")`: replaces every occurrence. -/
def replaceZ (s : String) : String :=
  String.join (s.data.map (fun c => if c = 'Z' then "+00:00" else String.singleton c))

/-- `raw.endswith("Z")`. -/
def endsWithZ (s : String) : Bool :=
  match s.data.getLast? with
  | some c => c = 'Z'
  | Option.none => false

/-- `c in s` for a single character. -/
def containsChar (s : String) (c : Char) : Bool :=
  s.data.any (fun a => a = c)

/-- Step 8 normalization of the timestamp string before parsing: rewrite
`Z` when the string ends with it; append `+00:00` when the string has no
`'+'` character but has a `'T'`. -/
def fixTs (raw : String) : String :=
  let r1 := if endsWithZ raw then replaceZ raw else raw
  if !(containsChar r1 '+') && containsChar r1 'T' then r1 ++ "+00:00" else r1

/-- Step 8: `datetime.fromisoformat` on the fixed-up string; failure
raises naming the (already normalized) stored value. -/
def tsParse (v : PyVal) : Except PyErr PDT :=
  match fromIsoFormat (fixTs (pyStrip (pyStr v))) with
  | some pd => .ok pd
  | Option.none => .error (pyValueError ("Invalid event_time format: " ++ pyStr v))

/-- Step 9: business rules against `now`, after
`replace(tzinfo=timezone.utc)` re-interprets the wall-clock reading as
UTC (any parsed offset is discarded). `timedelta.days` floors, hence
`Int.fdiv`. -/
def temporalCheck (wallT now : Int) : Except PyErr Unit :=
  if now < wallT then .error (pyValueError "timestamp cannot be from the future")
  else if 90 < (now - wallT).fdiv 86400 then
    .error (pyValueError "timestamp is older than 90 days")
  else .ok ()

/-- Split on `'.'` (for the anchored IPv4 regex: the octet alternatives
match no dot, so the regex matches exactly when the dot-split has four
parts each matching an octet alternative). -/
def splitOnDot : List Char → List (List Char)
  | [] => [[]]
  | c :: rest =>
    match splitOnDot rest with
    | [] => [[]]
    | g :: gs => if c = '.' then [] :: g :: gs else (c :: g) :: gs

/-- One octet: `25[0-5] | 2[0-4][0-9] | [01]?[0-9][0-9]?`. -/
def isOctet : List Char → Bool
  | [a] => a.isDigit
  | [a, b] => a.isDigit && b.isDigit
  | [a, b, c] =>
    (a = '2' && b = '5' && '0' ≤ c && c ≤ '5') ||
    (a = '2' && '0' ≤ b && b ≤ '4' && c.isDigit) ||
    ((a = '0' || a = '1') && b.isDigit && c.isDigit)
  | _ => false

/-- The anchored dotted-quad IPv4 pattern of step 10. -/
def ipv4Match (s : String) : Bool :=
  match splitOnDot s.data with
  | [a, b, c, d] => isOctet a && isOctet b && isOctet c && isOctet d
  | _ => false

/-- One step-10 address check (`re.match` on a non-string raises
TypeError; unreachable after step 6). -/
def ipCheck (r : PyRec) (k msg : String) : Except PyErr Unit :=
  match getItem r k with
  | .error e => .error e
  | .ok (.str s) =>
    if ipv4Match s then .ok () else .error (pyValueError (msg ++ s))
  | .ok _ => .error ⟨"TypeError", "expected string or bytes-like object"⟩

/-- Step 10: address format checks. -/
def ipChecks (r : PyRec) : Except PyErr Unit :=
  match ipCheck r "source_ip" "Invalid source_ip format: " with
  | .error e => .error e
  | .ok _ => ipCheck r "destination_ip" "Invalid destination_ip format: "

/-- One step-11 membership check (`in` on a set of strings: a non-string
value is simply not a member). -/
def domainCheck (r : PyRec) (k : String) (allowed : List String)
    (msg : String) : Except PyErr Unit :=
  match getItem r k with
  | .error e => .error e
  | .ok (.str s) =>
    if allowed.contains s then .ok () else .error (pyValueError msg)
  | .ok _ => .error (pyValueError msg)

/-- Step 11: enum membership checks. -/
def domainChecks (r : PyRec) : Except PyErr Unit :=
  match domainCheck r "severity" allowed_severity "Invalid severity type" with
  | .error e => .error e
  | .ok _ => domainCheck r "event_type" allowed_event_types "Invalid event type"

/-- One step-12 bound: `len` of a non-string raises (unreachable after
step 6). -/
def lengthCheck (r : PyRec) (k : String) (lo hi : Nat) (msg : String) :
    Except PyErr Unit :=
  match getItem r k with
  | .error e => .error e
  | .ok (.str s) =>
    if lo ≤ s.length && s.length ≤ hi then .ok () else .error (pyValueError msg)
  | .ok _ => .error ⟨"TypeError", "object has no len()"⟩

/-- Step 12: inclusive length bounds. -/
def lengthChecks (r : PyRec) : Except PyErr Unit :=
  match lengthCheck r "event_id" 1 128 "event_id length must be between 1 and 128 characters" with
  | .error e => .error e
  | .ok _ =>
    match lengthCheck r "source_ip" 7 15 "source_ip length invalid" with
    | .error e => .error e
    | .ok _ =>
      match lengthCheck r "destination_ip" 7 15 "destination_ip length invalid" with
      | .error e => .error e
      | .ok _ =>
        match lengthCheck r "event_type" 1 50 "event_type length must be between 1 and 50 characters" with
        | .error e => .error e
        | .ok _ =>
          match lengthCheck r "severity" 1 10 "severity length must be between 1 and 10 characters" with
          | .error e => .error e
          | .ok _ => lengthCheck r "message" 1 2000 "message length must be between 1 and 2000 characters"

/-- Steps 13–14: enrichment (`normalized_at` ISO string, `severity_level`,
`category`, `normalized_message`, `processed_at` aware-UTC datetime). -/
def enrich (r : PyRec) (tNorm tProc : Int) : Except (PyErr × PyRec) PyRec :=
  match getVal (setVal r "normalized_at" (.str (dtIso tNorm (some 0)))) "severity" with
  | Option.none => .error (pyKeyError (squote ++ "severity" ++ squote),
      setVal r "normalized_at" (.str (dtIso tNorm (some 0))))
  | some sv =>
    match getVal (setVal (setVal r "normalized_at" (.str (dtIso tNorm (some 0))))
        "severity_level" sv) "event_type" with
    | Option.none => .error (pyKeyError (squote ++ "event_type" ++ squote),
        setVal (setVal r "normalized_at" (.str (dtIso tNorm (some 0))))
          "severity_level" sv)
    | some ev =>
      match getVal (setVal (setVal (setVal r "normalized_at"
          (.str (dtIso tNorm (some 0)))) "severity_level" sv) "category" ev)
          "message" with
      | Option.none => .error (pyKeyError (squote ++ "message" ++ squote),
          setVal (setVal (setVal r "normalized_at" (.str (dtIso tNorm (some 0))))
            "severity_level" sv) "category" ev)
      | some (.str ms) =>
        .ok (setVal (setVal (setVal (setVal (setVal r "normalized_at"
          (.str (dtIso tNorm (some 0)))) "severity_level" sv) "category" ev)
          "normalized_message" (.str (pyStrip ms))) "processed_at" (.dt tProc (some 0)))
      | some _ =>
        .error (pyAttributeError ("object has no attribute " ++ squote ++ "strip" ++ squote),
          setVal (setVal (setVal r "normalized_at" (.str (dtIso tNorm (some 0))))
            "severity_level" sv) "category" ev)

/-- `validate_raw_event` on a dict, with the three `datetime.now` reads
passed explicitly (`now` for step 9, `tNorm` for step 13, `tProc` for
step 14). A failure carries the mutated state the caller sees. -/
def validateRecord (now tNorm tProc : Int) (r : PyRec) :
    Except (PyErr × PyRec) PyRec :=
  if r.isEmpty then .error (pyValueError "JSON object is empty", r)
  else
    match checkRequired r with
    | .error e => .error (e, r)
    | .ok _ =>
      match optPass r with
      | .error e => .error e
      | .ok r1 =>
        match typeChecks r1 with
        | .error e => .error (e, r1)
        | .ok _ =>
          match payloadCheck r1 with
          | .error e => .error (e, r1)
          | .ok _ =>
            match normReq r1 with
            | .error e => .error e
            | .ok r2 =>
              match emptyChecks r2 with
              | .error e => .error (e, r2)
              | .ok _ =>
                match getVal r2 "event_time" with
                | Option.none =>
                  .error (pyKeyError (squote ++ "event_time" ++ squote), r2)
                | some tv =>
                  match tsParse tv with
                  | .error e => .error (e, r2)
                  | .ok pd =>
                    match temporalCheck pd.wall now with
                    | .error e => .error (e, r2)
                    | .ok _ =>
                      match ipChecks r2 with
                      | .error e => .error (e, r2)
                      | .ok _ =>
                        match domainChecks r2 with
                        | .error e => .error (e, r2)
                        | .ok _ =>
                          match lengthChecks r2 with
                          | .error e => .error (e, r2)
                          | .ok _ => enrich r2 tNorm tProc

/-- `validate_raw_event(data)`: step 1 (structure) then the dict path. -/
def validate_raw_event (now tNorm tProc : Int) (v : PyVal) :
    Except (PyErr × PyVal) PyRec :=
  match v with
  | .dict r =>
    (match validateRecord now tNorm tProc r with
     | .ok out => .ok out
     | .error (e, s) => .error (e, .dict s))
  | _ => .error (pyValueError "Data must be a dictionary", v)

/-! ### Record builders (src/transform/schema_definitions.py) -/

/-- `build_raw_security_log(event, batch_id)`: `.get` on a non-mapping
raises AttributeError; `json.dumps(event, default=str)` can only hit the
recursion limit. The `message` field applies the
`description or "No message provided"` fallback. -/
def build_raw_security_log (event : PyVal) (batch_id : String) :
    Except PyErr PyRec :=
  match event with
  | .dict r =>
    (match jsonDumpsDefaultStr (.dict r) with
     | some payload =>
       .ok [("batch_id", .str batch_id),
            ("event_id", dictGet r "event_id"),
            ("event_time", dictGet r "timestamp"),
            ("source_ip", dictGet r "source_ip"),
            ("destination_ip", dictGet r "destination_ip"),
            ("event_type", dictGet r "event_type"),
            ("severity", dictGet r "severity"),
            ("message", pyOr (dictGet r "description") (.str "No message provided")),
            ("raw_payload", .str payload)]
     | Option.none => .error ⟨"RecursionError", "maximum recursion depth exceeded"⟩)
  | _ => .error (pyAttributeError ("object has no attribute " ++ squote ++ "get" ++ squote))

/-- `build_staging_parsed_event(event)`: square-bracket reads (KeyError on
a dropped field); `processed_at` falls back to `datetime.now(utc)`
(passed as `tFall`) through `or`. -/
def build_staging_parsed_event (event : PyRec) (tFall : Int) :
    Except PyErr PyRec :=
  match getItem event "event_id", getItem event "event_time",
      getItem event "source_ip", getItem event "destination_ip",
      getItem event "event_type", getItem event "severity_level",
      getItem event "category", getItem event "normalized_message" with
  | .ok eid, .ok etime, .ok sip, .ok dip, .ok etype, .ok slevel, .ok cat, .ok nmsg =>
    .ok [("event_id", eid),
        ("event_time", etime),
        ("source_ip", sip),
        ("destination_ip", dip),
        ("event_type", etype),
        ("severity_level", slevel),
        ("category", cat),
        ("normalized_message", nmsg),
        ("processed_at", pyOr (dictGet event "processed_at") (.dt tFall (some 0)))]
  | .error e, _, _, _, _, _, _, _ => .error e
  | _, .error e, _, _, _, _, _, _ => .error e
  | _, _, .error e, _, _, _, _, _ => .error e
  | _, _, _, .error e, _, _, _, _ => .error e
  | _, _, _, _, .error e, _, _, _ => .error e
  | _, _, _, _, _, .error e, _, _ => .error e
  | _, _, _, _, _, _, .error e, _ => .error e
  | _, _, _, _, _, _, _, .error e => .error e

/-- `build_validation_error_record(event, error)`: note the *strict*
`json.dumps(event)` — a non-serializable value (e.g. a datetime) in the
captured record makes the rejection handler itself raise. -/
def build_validation_error_record (event : PyRec) (e : PyErr) (tLog : Int) :
    Except PyErr PyRec :=
  match jsonDumpsStrict (.dict event) with
  | some raw =>
    .ok [("event_id", dictGet event "event_id"),
         ("event_time", dictGet event "event_time"),
         ("source_ip", dictGet event "source_ip"),
         ("destination_ip", dictGet event "destination_ip"),
         ("raw_event", .str raw),
         ("error_type", .str e.ename),
         ("error_message", .str e.emsg),
         ("logged_at", .dt tLog (some 0))]
  | Option.none => .error ⟨"TypeError", "Object is not JSON serializable"⟩

/-! ### `validate_transformation` (src/transform/validate_transform.py) -/

/-- `field not in data or data[field] is None`. -/
def missingOrNone (data : PyRec) (f : String) : Bool :=
  match getVal data f with
  | Option.none => true
  | some .none => true
  | some _ => false

/-- Python `==` on values (fuel-bounded for nested containers; dict
comparison is key-based, list comparison element-wise; bools compare
equal to their int values; aware datetimes compare as instants). -/
def pyEqF : Nat → PyVal → PyVal → Bool
  | 0, _, _ => false
  | _ + 1, .str a, .str b => a == b
  | _ + 1, .int a, .int b => a == b
  | _ + 1, .bool a, .bool b => a == b
  | _ + 1, .bool a, .int b => (if a then (1 : Int) else 0) == b
  | _ + 1, .int a, .bool b => a == (if b then (1 : Int) else 0)
  | _ + 1, .none, .none => true
  | _ + 1, .dt t o, .dt t' o' =>
    (match o, o' with
     | some x, some y => t - x == t' - y
     | Option.none, Option.none => t == t'
     | _, _ => false)
  | f + 1, .list xs, .list ys =>
    xs.length == ys.length &&
      (xs.zip ys).all (fun p => pyEqF f p.1 p.2)
  | f + 1, .dict es, .dict fs =>
    es.length == fs.length &&
      es.all (fun p =>
        match getVal fs p.1 with
        | some v => pyEqF f p.2 v
        | Option.none => false)
  | _ + 1, _, _ => false

def pyEq (a b : PyVal) : Bool := pyEqF pyFuel a b

def REQUIRED_TRANSFORM_FIELDS : List String :=
  ["severity_level", "category", "normalized_message", "processed_at"]

def REQUIRED_CANONICAL_FIELDS : List String :=
  ["event_id", "event_time", "source_ip", "destination_ip", "event_type",
   "severity"]

/-- `validate_transformation(data)`: presence/non-null of canonical and
transform fields, consistency of the copies, non-blank normalized
message, and an aware-UTC `processed_at`. -/
def validate_transformation (data : PyRec) : Except PyErr Unit :=
  let missing_canonical := REQUIRED_CANONICAL_FIELDS.filter (missingOrNone data)
  if !missing_canonical.isEmpty then
    .error (pyValueError ("Canonical field(s) missing after transform: "
      ++ pyStrListRepr missing_canonical))
  else
    let missing := REQUIRED_TRANSFORM_FIELDS.filter (missingOrNone data)
    if !missing.isEmpty then
      .error (pyValueError ("Missing transformed field(s) during post-transform validation: "
        ++ pyStrListRepr missing))
    else if !(pyEq (dictGet data "severity_level") (dictGet data "severity")) then
      .error (pyValueError "severity_level does not match severity")
    else if !(pyEq (dictGet data "category") (dictGet data "event_type")) then
      .error (pyValueError "category does not match event_type")
    else
      match dictGet data "normalized_message" with
      | .str s =>
        if pyStrip s == "" then .error (pyValueError "normalized_message is empty")
        else
          match dictGet data "processed_at" with
          | .str ps =>
            (match fromIsoFormat ps with
             | some pd =>
               (match pd.off with
                | some 0 => .ok ()
                | _ => .error (pyValueError "processed_at must be timezone-aware and UTC"))
             | Option.none => .error (pyValueError "processed_at is not a valid ISO datetime"))
          | .dt _ off =>
            (match off with
             | some 0 => .ok ()
             | _ => .error (pyValueError "processed_at must be timezone-aware and UTC"))
          | _ => .error (pyValueError "processed_at must be a datetime")
      | _ =>
        .error (pyAttributeError ("object has no attribute " ++ squote ++ "strip" ++ squote))

/-! ### Per-record loop of `run_transform_for_batch`
(src/transform/transform_security_events.py)

S3 extraction/upload, the database writes and the logger transports are
external collaborators (spec §1); the model starts at the per-event loop
and an `Except.error` result models an exception escaping that loop (the
outer handler logs, rolls back and re-raises, aborting the batch).

The driver imports `canonicalize_event`, `validate_event` and
`normalize_event`, which are absent from the source tree. -/

/-- Modelled from the spec: the missing `canonicalize_event` /
`validate_event` / `normalize_event` chain. Per spec §4.1–4.5 and §2, the
composition performs exactly the canonicalize → structural/type validate
→ temporal validate → normalize/enrich sequence of `validate_raw_event`,
mutating the same dict in place; we model the composed call chain by
`validateRecord`. -/
def canonValidateNormalize (now tNorm tProc : Int) (r : PyRec) :
    Except (PyErr × PyRec) PyRec :=
  validateRecord now tNorm tProc r

/-- The body of the per-record `try`: build the canonical record, run the
canonicalize/validate/normalize chain, build the staging record, post-
validate. On success returns (staging record, final `canonical_event`
binding); on failure returns the exception plus the `canonical_event`
binding produced by *this* iteration (if the build already failed, the
name keeps its previous value — `Option.none` here). -/
def tryProcessEvent (now tNorm tProc tFall : Int) (batchId : String)
    (raw : PyVal) : Except (PyErr × Option PyRec) (PyRec × PyRec) :=
  match build_raw_security_log raw batchId with
  | .error e => .error (e, Option.none)
  | .ok c0 =>
    match canonValidateNormalize now tNorm tProc c0 with
    | .error (e, s) => .error (e, some s)
    | .ok c1 =>
      match build_staging_parsed_event c1 tFall with
      | .error e => .error (e, some c1)
      | .ok parsed =>
        match validate_transformation c1 with
        | .error e => .error (e, some c1)
        | .ok _ => .ok (parsed, c1)

/-- The `except` block: `logger.warning` evaluates
`raw_event.get("event_id")` (AttributeError on a non-mapping), then
`build_validation_error_record(canonical_event, e)` (NameError when
`canonical_event` was never bound). An error here escapes the loop. -/
def handleRecordFailure (raw : PyVal) (canon : Option PyRec) (e : PyErr)
    (tLog : Int) : Except PyErr PyRec :=
  match raw with
  | .dict _ =>
    (match canon with
     | some c => build_validation_error_record c e tLog
     | Option.none =>
       .error (pyNameError ("name " ++ squote ++ "canonical_event" ++ squote
         ++ " is not defined")))
  | _ => .error (pyAttributeError ("object has no attribute " ++ squote ++ "get" ++ squote))

/-- The per-event loop, threading the `canonical_event` binding across
iterations (a failing build leaves the previous iteration's value
visible to the handler). -/
def runBatchGo (now tNorm tProc tFall tLog : Int) (batchId : String) :
    List PyVal → Option PyRec → Except PyErr (List PyRec × List PyRec)
  | [], _ => .ok ([], [])
  | raw :: rest, lastCanon =>
    match tryProcessEvent now tNorm tProc tFall batchId raw with
    | .ok (parsed, c1) =>
      (match runBatchGo now tNorm tProc tFall tLog batchId rest (some c1) with
       | .ok (v, i) => .ok (parsed :: v, i)
       | .error e => .error e)
    | .error (e, canonHere) =>
      let canonNow := match canonHere with
        | some c => some c
        | Option.none => lastCanon
      match handleRecordFailure raw canonNow e tLog with
      | .ok errRec =>
        (match runBatchGo now tNorm tProc tFall tLog batchId rest canonNow with
         | .ok (v, i) => .ok (v, errRec :: i)
         | .error e' => .error e')
      | .error e' => .error e'

/-- `run_transform_for_batch`, restricted to the per-event loop: returns
the (valid_events, invalid_events) pair, or the exception that aborted
the batch. -/
def run_transform_for_batch (now tNorm tProc tFall tLog : Int)
    (batchId : String) (all_events : List PyVal) :
    Except PyErr (List PyRec × List PyRec) :=
  runBatchGo now tNorm tProc tFall tLog batchId all_events Option.none

/-! ### C8 — idempotence of canonicalization -/

/-- The canonicalization/normalization transformations of the validator
(step 3, optional-field loop; step 6, required-field normalization),
applied as one pass. -/
def canonicalizeSteps (r : PyRec) : Except (PyErr × PyRec) PyRec :=
  match optPass r with
  | .ok r1 => normReq r1
  | .error e => .error e

/-! ### C3 — missing required fields -/

/-- `x.ok-or-default`, to name the record a successful builder returns. -/
def exceptOkD {ε α : Type} (x : Except ε α) (d : α) : α :=
  match x with
  | .ok v => v
  | .error _ => d

def c3rec : PyRec :=
  [("event_id", .str "evt_1"),
   ("event_time", .str "2024-01-01T10:00:00Z"),
   ("destination_ip", .str "10.0.0.5"),
   ("event_type", .str "port_scan"),
   ("severity", .str "high"),
   ("message", .str "m")]

/-! ### C6 — the validator mutates its input in place -/

def c6rec : PyRec :=
  [("event_id", .str "evt_1"),
   ("event_time", .str "2024-01-01T10:00:00Z"),
   ("source_ip", .str "45.19.34.10"),
   ("destination_ip", .str "10.0.0.5"),
   ("event_type", .str "port_scan"),
   ("severity", .str "bogus"),
   ("message", .str "m"),
   ("host", .str " X ")]

/-- The state `validate_raw_event` leaves `c6rec` in when it rejects it
at the severity domain check: `host` trimmed and lower-cased, the five
other optional keys added with the `None` marker. -/
def c6mut : PyRec :=
  [("event_id", .str "evt_1"),
   ("event_time", .str "2024-01-01T10:00:00Z"),
   ("source_ip", .str "45.19.34.10"),
   ("destination_ip", .str "10.0.0.5"),
   ("event_type", .str "port_scan"),
   ("severity", .str "bogus"),
   ("message", .str "m"),
   ("host", .str "x"),
   ("device_id", PyVal.none),
   ("username", PyVal.none),
   ("application", PyVal.none),
   ("platform", PyVal.none),
   ("vendor", PyVal.none)]

/-- Did validation succeed? -/
def vrOk : Except (PyErr × PyRec) PyRec → Bool
  | .ok _ => true
  | .error _ => false

def c5rec : PyRec :=
  [("event_id", .str "evt_1"),
   ("event_time", .str "2024-01-01T10:00:00Z"),
   ("source_ip", .str "45.19.34.10"),
   ("destination_ip", .str "10.0.0.5"),
   ("event_type", .str "UNAUTHORIZED_LOGIN"),
   ("severity", .str "HIGH"),
   ("message", .str "test")]

/-! ### C1 — per-record isolation in the batch driver -/

/-- Records whose values are scalar JSON types. -/
def atomicVals (r : PyRec) : Prop := ∀ p ∈ r, isAtomic p.2 = true

def atomicValsB (r : PyRec) : Bool := r.all (fun p => isAtomic p.2)

/-- A raw API event in the shape the batch driver expects. -/
def c1goodRec : PyRec :=
  [("event_id", .str "evt-1"),
   ("timestamp", .str "2024-01-01T10:00:00Z"),
   ("source_ip", .str "10.0.0.1"),
   ("destination_ip", .str "10.0.0.2"),
   ("event_type", .str "login"),
   ("severity", .str "low"),
   ("description", .str "ok")]

/-- A malformed raw event (missing fields, non-string severity) that the
validator rejects. -/
def c1badRec : PyRec := [("severity", .int 5)]

/-! ### Theorems -/

theorem getVal_setValGo_self (r : PyRec) (k : String) (v : PyVal)
    (h : hasKey r k = true) : getVal (setValGo r k v) k = some v := by
  induction r with
  | nil => simp [hasKey] at h
  | cons p r ih =>
    by_cases hp : p.1 = k
    · simp [setValGo, getVal, hp]
    · simp only [hasKey, Bool.or_eq_true, decide_eq_true_eq] at h
      rcases h with h | h
      · exact absurd h hp
      · simp [setValGo, getVal, hp, ih h]

theorem getVal_append_single_self (r : PyRec) (k : String) (v : PyVal)
    (h : hasKey r k = false) : getVal (r ++ [(k, v)]) k = some v := by
  induction r with
  | nil => simp [getVal]
  | cons p r ih =>
    simp only [hasKey, Bool.or_eq_false_iff, decide_eq_false_iff_not] at h
    simp [getVal, h.1, ih h.2]

theorem getVal_setVal_self (r : PyRec) (k : String) (v : PyVal) :
    getVal (setVal r k v) k = some v := by
  unfold setVal
  split
  · exact getVal_setValGo_self r k v (by assumption)
  · exact getVal_append_single_self r k v (by rename_i h; simpa using h)

theorem getVal_setValGo_ne (r : PyRec) (k k' : String) (v : PyVal)
    (h : k' ≠ k) : getVal (setValGo r k v) k' = getVal r k' := by
  have hk' : ¬(k = k') := fun hh => h hh.symm
  induction r with
  | nil => simp [setValGo]
  | cons p r ih =>
    by_cases hp : p.1 = k
    · have hpk' : ¬(p.1 = k') := by rw [hp]; exact hk'
      simp [setValGo, getVal, hp, hk', hpk', ih]
    · by_cases hq : p.1 = k'
      · simp [setValGo, getVal, hp, hq, h]
      · simp [setValGo, getVal, hp, hq, ih]

theorem getVal_append_single_ne (r : PyRec) (k k' : String) (v : PyVal)
    (h : k' ≠ k) : getVal (r ++ [(k, v)]) k' = getVal r k' := by
  have hk' : ¬(k = k') := fun hh => h hh.symm
  induction r with
  | nil => simp [getVal, hk']
  | cons p r ih =>
    simp only [List.cons_append, getVal]
    by_cases hq : p.1 = k'
    · simp [hq]
    · simp [hq, ih]

theorem getVal_setVal_ne (r : PyRec) (k k' : String) (v : PyVal)
    (h : k' ≠ k) : getVal (setVal r k v) k' = getVal r k' := by
  unfold setVal
  split
  · exact getVal_setValGo_ne r k k' v h
  · exact getVal_append_single_ne r k k' v h

theorem hasKey_of_getVal {r : PyRec} {k : String} {v : PyVal}
    (h : getVal r k = some v) : hasKey r k = true := by
  induction r with
  | nil => simp [getVal] at h
  | cons p r ih =>
    by_cases hp : p.1 = k
    · simp [hasKey, hp]
    · simp only [getVal, hp, if_neg, not_false_iff] at h
      simp [hasKey, hp, ih h]

theorem getVal_none_of_not_hasKey {r : PyRec} {k : String}
    (h : hasKey r k = false) : getVal r k = Option.none := by
  induction r with
  | nil => simp [getVal]
  | cons p r ih =>
    simp only [hasKey, Bool.or_eq_false_iff, decide_eq_false_iff_not] at h
    simp [getVal, h.1, ih h.2]

theorem hasKey_setValGo_ne (r : PyRec) (k k' : String) (v : PyVal)
    (h : k' ≠ k) : hasKey (setValGo r k v) k' = hasKey r k' := by
  have hk' : ¬(k = k') := fun hh => h hh.symm
  induction r with
  | nil => simp [setValGo]
  | cons p r ih =>
    by_cases hp : p.1 = k
    · have hpk' : ¬(p.1 = k') := by rw [hp]; exact hk'
      simp [setValGo, hasKey, hp, hk', hpk', ih]
    · simp [setValGo, hasKey, hp, ih]

theorem hasKey_append_single_ne (r : PyRec) (k k' : String) (v : PyVal)
    (h : k' ≠ k) : hasKey (r ++ [(k, v)]) k' = hasKey r k' := by
  have hk' : ¬(k = k') := fun hh => h hh.symm
  induction r with
  | nil => simp [hasKey, hk']
  | cons p r ih => simp [hasKey, ih]

theorem hasKey_setVal_ne (r : PyRec) (k k' : String) (v : PyVal)
    (h : k' ≠ k) : hasKey (setVal r k v) k' = hasKey r k' := by
  unfold setVal
  split
  · exact hasKey_setValGo_ne r k k' v h
  · exact hasKey_append_single_ne r k k' v h

theorem fromIsoFormat_utc_offset_case : fromIsoFormat "2024-01-01T10:00:00+00:00" = some ⟨1704103200, some 0⟩ := by rfl

theorem fromIsoFormat_negative_offset_case : fromIsoFormat "2024-01-01T10:00:00-05:00" = some ⟨1704103200, some (-18000)⟩ := by rfl

theorem fromIsoFormat_double_offset_case : fromIsoFormat "2024-01-01T10:00:00-05:00+00:00" = Option.none := by rfl

theorem fromIsoFormat_space_separator_case : fromIsoFormat "2024-01-01 10:00:00" = some ⟨1704103200, Option.none⟩ := by rfl

theorem fromIsoFormat_invalid_date_case : fromIsoFormat "2024-02-30T00:00:00" = Option.none := by rfl

/-! ### Helper lemmas -/

theorem dropWhile_head_not {p : Char → Bool} :
    ∀ {l t : List Char} {c : Char}, List.dropWhile p l = c :: t → p c = false := by
  intro l
  induction l with
  | nil => intro t c h; simp [List.dropWhile] at h
  | cons a l ih =>
    intro t c h
    by_cases ha : p a
    · rw [List.dropWhile_cons_of_pos ha] at h
      exact ih h
    · rw [List.dropWhile_cons_of_neg ha] at h
      cases h
      simpa using ha

theorem dropWhile_idem {p : Char → Bool} (l : List Char) :
    List.dropWhile p (List.dropWhile p l) = List.dropWhile p l := by
  cases h : List.dropWhile p l with
  | nil => simp
  | cons c t =>
    have hc := dropWhile_head_not h
    simp [List.dropWhile, hc]

theorem pyStrip_idem (s : String) : pyStrip (pyStrip s) = pyStrip s := by
  unfold pyStrip
  simp only [String.data]
  congr 1
  set a := s.data.dropWhile pyIsSpace with ha
  set b := a.reverse.dropWhile pyIsSpace with hb
  have hrev : (b.reverse).dropWhile pyIsSpace = b.reverse := by
    cases hbr : b.reverse with
    | nil => simp
    | cons c t =>
      have hbne : b ≠ [] := by
        intro hh; rw [hh] at hbr; simp at hbr
      have hane : a ≠ [] := by
        intro hh
        apply hbne
        rw [hb, hh]
        simp
      obtain ⟨u, hu⟩ := List.dropWhile_suffix (l := a.reverse) pyIsSpace
      have hlast : b.getLast? = a.head? := by
        have h1 : (u ++ b).getLast? = a.reverse.getLast? := by rw [hu]
        rw [List.getLast?_append] at h1
        rw [List.getLast?_reverse] at h1
        cases hbl : b.getLast? with
        | none => exact absurd (List.getLast?_eq_none_iff.mp hbl) hbne
        | some x => rw [hbl] at h1; simpa using h1
      have hhead : ∃ x t', a = x :: t' ∧ pyIsSpace x = false := by
        cases hac : a with
        | nil => exact absurd hac hane
        | cons x t' =>
          refine ⟨x, t', rfl, ?_⟩
          exact dropWhile_head_not (t := t') (by rw [← hac, ha])
      obtain ⟨x, t', hat, hx⟩ := hhead
      have : c = x := by
        have h2 : b.reverse.head? = b.getLast? := List.head?_reverse b
        rw [hbr, hlast, hat] at h2
        simpa using h2
      rw [List.dropWhile_cons_of_neg (by rw [this]; simp [hx])]
  rw [hrev, List.reverse_reverse]
  cases hbc : b with
  | nil => simp
  | cons c t =>
    have hc : pyIsSpace c = false := dropWhile_head_not (by rw [← hbc, hb])
    rw [List.dropWhile_cons_of_neg (by simp [hc])]

theorem fdiv_le_90_iff (x : Int) : ¬(90 < x.fdiv 86400) ↔ x < 91 * 86400 := by
  rw [Int.fdiv_eq_ediv _ (by norm_num)]
  omega

/-- A non-empty string is truthy. -/
theorem str_truthy_of_len {s : String} (h : 1 ≤ s.length) :
    pyTruthy (.str s) = true := by
  simp only [pyTruthy, Bool.not_eq_eq_eq_not, Bool.not_true, beq_eq_false_iff_ne, ne_eq]
  intro hh
  rw [hh] at h
  simp [String.length] at h

/-! ### C2 — temporal acceptance window -/

/-- C2 (corrected): the temporal validator accepts exactly the event
times `t` with `now − 91 days < t ≤ now`: a time equal to `now` is
accepted, a time strictly after `now` is rejected (future-timestamp
rule), a time exactly 90 days old is accepted, and — against the claim —
a time 90 days + 1 second old is *still accepted*, because
`timedelta.days` floors to 90; staleness rejection begins only at 91
days. -/
theorem C2_temporal_window (t now : Int) :
    temporalCheck t now = .ok () ↔ (t ≤ now ∧ now - t < 91 * 86400) := by
  unfold temporalCheck
  constructor
  · intro h
    by_cases h1 : now < t
    · rw [if_pos h1] at h; cases h
    · rw [if_neg h1] at h
      by_cases h2 : 90 < (now - t).fdiv 86400
      · rw [if_pos h2] at h; cases h
      · exact ⟨by omega, (fdiv_le_90_iff (now - t)).mp h2⟩
  · intro ⟨h1, h2⟩
    rw [if_neg (by omega), if_neg ((fdiv_le_90_iff (now - t)).mpr h2)]

/-- C2 counterexample: an event time 90 days + 1 second before `now`
(here `now = 0`) is accepted by the code, where the claim demands a
StaleTimestampError rejection. -/
theorem C2_counterexample :
    temporalCheck (-(90 * 86400 + 1)) 0 = .ok () := by rfl

/-! ### C4 — timestamp normalization and parsing -/

/-- C4 (code bug): `"2024-01-01T10:00:00-05:00"` is a syntactically valid
extended ISO-8601 date-time (the parser accepts it, first conjunct), but
the offset-presence test is `"+" not in raw_ts`, so the negative-offset
string gets `"+00:00"` appended (second conjunct) and the parse of the
fixed-up string fails: the record is rejected with the format error
naming the raw value (third conjunct), where both the claim and the
code's own comment ("If there's no timezone at all, add UTC") demand
acceptance. -/
theorem C4_negative_offset_rejected :
    fromIsoFormat "2024-01-01T10:00:00-05:00" = some ⟨1704103200, some (-18000)⟩ ∧
    fixTs "2024-01-01T10:00:00-05:00" = "2024-01-01T10:00:00-05:00+00:00" ∧
    tsParse (.str "2024-01-01T10:00:00-05:00") =
      .error (pyValueError "Invalid event_time format: 2024-01-01T10:00:00-05:00") :=
  ⟨by rfl, by rfl, by rfl⟩

/-! ### C7 — optional metadata fields -/

/-- C7 (corrected): the canonicalizer does *not* coerce: an optional
field present as a string is stripped and lower-cased in place; an absent
field is set to the `None` marker; but any present non-string value —
including `None` itself, which the claim says should become the absent
marker — is rejected with the `<field> must be a string` error. -/
theorem C7_optional_fields (r : PyRec) (f : String) :
    (∀ s, getVal r f = some (.str s) →
        optStep r f = .ok (setVal r f (.str (pyLower (pyStrip s))))) ∧
    (hasKey r f = false → optStep r f = .ok (setVal r f .none)) ∧
    (∀ v, getVal r f = some v → isStr v = false →
        optStep r f = .error (pyValueError (f ++ " must be a string"), r)) := by
  refine ⟨?_, ?_, ?_⟩
  · intro s h; simp [optStep, h]
  · intro h; simp [optStep, getVal_none_of_not_hasKey h]
  · intro v h hv
    cases v <;> simp_all [optStep, isStr]

/-- Witness for C7 at concrete inputs: a present string is normalized, an
absent key becomes the `None` marker, and a present `None` raises. -/
theorem C7_witness :
    optStep [("host", PyVal.str " X ")] "host" = .ok [("host", PyVal.str "x")] ∧
    optStep [("vendor", PyVal.str "v")] "host" =
      .ok [("vendor", PyVal.str "v"), ("host", PyVal.none)] ∧
    optStep [("host", PyVal.none)] "host" =
      .error (pyValueError "host must be a string", [("host", PyVal.none)]) :=
  ⟨(C7_optional_fields [("host", PyVal.str " X ")] "host").1 " X " (by rfl),
   (C7_optional_fields [("vendor", PyVal.str "v")] "host").2.1 (by rfl),
   (C7_optional_fields [("host", PyVal.none)] "host").2.2 PyVal.none (by rfl) (by rfl)⟩

/-- C7 counterexample: a record whose optional `host` is present with
value `None` is rejected by the validator with the type error — the
claim instead demands that a present null be replaced by the absent
marker without failure. -/
theorem C7_counterexample :
    validate_raw_event 0 0 0 (.dict
      [("event_id", .str "evt_1"),
       ("event_time", .str "2024-01-01T10:00:00Z"),
       ("source_ip", .str "45.19.34.10"),
       ("destination_ip", .str "10.0.0.5"),
       ("event_type", .str "port_scan"),
       ("severity", .str "high"),
       ("message", .str "m"),
       ("host", PyVal.none)]) =
    .error (pyValueError "host must be a string", .dict
      [("event_id", .str "evt_1"),
       ("event_time", .str "2024-01-01T10:00:00Z"),
       ("source_ip", .str "45.19.34.10"),
       ("destination_ip", .str "10.0.0.5"),
       ("event_type", .str "port_scan"),
       ("severity", .str "high"),
       ("message", .str "m"),
       ("host", PyVal.none)]) := by rfl

theorem setValGo_pointwise {r : PyRec} {k : String} {v : PyVal}
    (h : ∀ q ∈ r, q.1 = k → q.2 = v) : setValGo r k v = r := by
  induction r with
  | nil => rfl
  | cons p rest ih =>
    unfold setValGo
    by_cases hp : p.1 = k
    · have hv := h p (by simp) hp
      rw [if_pos hp]
      have : (k, v) = p := by
        cases p with
        | mk a b => simp at hp hv; simp [hp, hv]
      rw [this, ih (fun q hq hk => h q (by simp [hq]) hk)]
    · rw [if_neg hp, ih (fun q hq hk => h q (by simp [hq]) hk)]

theorem getVal_pointwise_of_nodup {r : PyRec} {k : String} {v : PyVal}
    (hnd : (r.map Prod.fst).Nodup) (h : getVal r k = some v) :
    ∀ q ∈ r, q.1 = k → q.2 = v := by
  induction r with
  | nil => simp
  | cons p rest ih =>
    simp only [List.map_cons, List.nodup_cons] at hnd
    intro q hq hk
    rcases List.mem_cons.mp hq with hq | hq
    · subst hq
      rw [show getVal (q :: rest) k = some q.2 by simp [getVal, hk]] at h
      exact (Option.some.injEq _ _ ▸ h).symm ▸ rfl
    · by_cases hp : p.1 = k
      · exfalso
        apply hnd.1
        rw [hp, ← hk]
        exact List.mem_map_of_mem Prod.fst hq
      · exact ih hnd.2 (by simpa [getVal, hp] using h) q hq hk

/-- Writing back the value a key already holds is the identity on a
well-formed dict. -/
theorem setVal_id {r : PyRec} {k : String} {v : PyVal}
    (hnd : (r.map Prod.fst).Nodup) (h : getVal r k = some v) :
    setVal r k v = r := by
  unfold setVal
  rw [if_pos (hasKey_of_getVal h)]
  exact setValGo_pointwise (getVal_pointwise_of_nodup hnd h)

/-- C8 (corrected): on an already-canonical record whose optional fields
are present as normalized *strings*, re-applying the canonicalization
transformations is the identity. (The claim's other canonical shape —
optional fields holding the absent marker — is refuted by the
counterexample: a present `None` makes re-canonicalization raise.) -/
theorem C8_canonicalize_idempotent (r : PyRec)
    (hnd : (r.map Prod.fst).Nodup)
    (hstrip : ∀ f ∈ ["event_id", "event_time", "source_ip", "destination_ip",
        "message"], ∃ s, getVal r f = some (.str s) ∧ pyStrip s = s)
    (hlower : ∀ f ∈ ["event_type", "severity"],
        ∃ s, getVal r f = some (.str s) ∧ pyLower (pyStrip s) = s)
    (hopt : ∀ f ∈ optional_string_fields,
        ∃ s, getVal r f = some (.str s) ∧ pyLower (pyStrip s) = s) :
    canonicalizeSteps r = .ok r := by
  have hstep : ∀ f, (∃ s, getVal r f = some (.str s) ∧ pyLower (pyStrip s) = s) →
      optStep r f = .ok r := by
    rintro f ⟨s, hs, hfix⟩
    simp only [optStep, hs]
    rw [hfix, setVal_id hnd hs]
  have hnorm : ∀ f, (∃ s, getVal r f = some (.str s) ∧ pyStrip s = s) →
      normStep r f pyStrip = .ok r := by
    rintro f ⟨s, hs, hfix⟩
    simp only [normStep, hs, pyStr]
    rw [hfix, setVal_id hnd hs]
  have hnorml : ∀ f, (∃ s, getVal r f = some (.str s) ∧ pyLower (pyStrip s) = s) →
      normStep r f (fun s => pyLower (pyStrip s)) = .ok r := by
    rintro f ⟨s, hs, hfix⟩
    simp only [normStep, hs, pyStr]
    rw [hfix, setVal_id hnd hs]
  have e1 := hstep "host" (hopt "host" (by simp [optional_string_fields]))
  have e2 := hstep "device_id" (hopt "device_id" (by simp [optional_string_fields]))
  have e3 := hstep "username" (hopt "username" (by simp [optional_string_fields]))
  have e4 := hstep "application" (hopt "application" (by simp [optional_string_fields]))
  have e5 := hstep "platform" (hopt "platform" (by simp [optional_string_fields]))
  have e6 := hstep "vendor" (hopt "vendor" (by simp [optional_string_fields]))
  have n1 := hnorm "event_id" (hstrip "event_id" (by simp))
  have n2 := hnorm "event_time" (hstrip "event_time" (by simp))
  have n3 := hnorm "source_ip" (hstrip "source_ip" (by simp))
  have n4 := hnorm "destination_ip" (hstrip "destination_ip" (by simp))
  have n5 := hnorml "event_type" (hlower "event_type" (by simp))
  have n6 := hnorml "severity" (hlower "severity" (by simp))
  have n7 := hnorm "message" (hstrip "message" (by simp))
  simp only [canonicalizeSteps, optPass, optional_string_fields, optPassGo,
    e1, e2, e3, e4, e5, e6, normReq, n1, n2, n3, n4, n5, n6, n7]

/-- Witness for C8: a concrete canonical record is a fixed point of the
canonicalization pass. -/
theorem C8_witness :
    canonicalizeSteps
      [("event_id", .str "evt_1"),
       ("event_time", .str "2024-01-01T10:00:00Z"),
       ("source_ip", .str "45.19.34.10"),
       ("destination_ip", .str "10.0.0.5"),
       ("event_type", .str "port_scan"),
       ("severity", .str "high"),
       ("message", .str "m"),
       ("host", .str "web01"),
       ("device_id", .str "d1"),
       ("username", .str "u"),
       ("application", .str "app"),
       ("platform", .str "linux"),
       ("vendor", .str "acme")] =
    .ok
      [("event_id", .str "evt_1"),
       ("event_time", .str "2024-01-01T10:00:00Z"),
       ("source_ip", .str "45.19.34.10"),
       ("destination_ip", .str "10.0.0.5"),
       ("event_type", .str "port_scan"),
       ("severity", .str "high"),
       ("message", .str "m"),
       ("host", .str "web01"),
       ("device_id", .str "d1"),
       ("username", .str "u"),
       ("application", .str "app"),
       ("platform", .str "linux"),
       ("vendor", .str "acme")] := by
  apply C8_canonicalize_idempotent
  · decide
  · intro f hf
    fin_cases hf <;> exact ⟨_, by rfl, by rfl⟩
  · intro f hf
    fin_cases hf <;> exact ⟨_, by rfl, by rfl⟩
  · intro f hf
    fin_cases hf <;> exact ⟨_, by rfl, by rfl⟩

/-- C8 counterexample: a canonical record carrying the absent marker
(`None`) in its optional fields — the canonical shape the Canonicalizer
itself produces for absent fields — is *not* a fixed point: re-applying
the canonicalization transformations raises `host must be a string`
instead of returning the record unchanged. -/
theorem C8_counterexample :
    canonicalizeSteps
      [("event_id", .str "evt_1"),
       ("event_time", .str "2024-01-01T10:00:00Z"),
       ("source_ip", .str "45.19.34.10"),
       ("destination_ip", .str "10.0.0.5"),
       ("event_type", .str "port_scan"),
       ("severity", .str "high"),
       ("message", .str "m"),
       ("host", PyVal.none),
       ("device_id", PyVal.none),
       ("username", PyVal.none),
       ("application", PyVal.none),
       ("platform", PyVal.none),
       ("vendor", PyVal.none)] =
    .error (pyValueError "host must be a string",
      [("event_id", .str "evt_1"),
       ("event_time", .str "2024-01-01T10:00:00Z"),
       ("source_ip", .str "45.19.34.10"),
       ("destination_ip", .str "10.0.0.5"),
       ("event_type", .str "port_scan"),
       ("severity", .str "high"),
       ("message", .str "m"),
       ("host", PyVal.none),
       ("device_id", PyVal.none),
       ("username", PyVal.none),
       ("application", PyVal.none),
       ("platform", PyVal.none),
       ("vendor", PyVal.none)]) := by rfl

/-- C3 (corrected): a non-empty mapping lacking `source_ip` is rejected at
the required-fields check with the message `Missing required fields [...]`
listing *every* missing field (`source_ip` among them), the input left
unchanged; the RejectedEvent built from it carries that message in
`error_message` — but its `error_type` field holds the raised exception's
class name `"ValueError"`, not the claim's `MissingFieldError`
discriminator (the kind is recoverable only from the message text). -/
theorem C3_missing_field_rejection (now tN tP tLog : Int) (r : PyRec) (rej : PyRec)
    (hne : r ≠ [])
    (hmiss : hasKey r "source_ip" = false)
    (hrej : build_validation_error_record r
        (pyValueError ("Missing required fields "
          ++ pyStrListRepr (required_fields.filter (fun f => !(hasKey r f))))) tLog
        = .ok rej) :
    validateRecord now tN tP r =
      .error (pyValueError ("Missing required fields "
        ++ pyStrListRepr (required_fields.filter (fun f => !(hasKey r f)))), r) ∧
    "source_ip" ∈ required_fields.filter (fun f => !(hasKey r f)) ∧
    (∀ f ∈ required_fields, hasKey r f = false →
        f ∈ required_fields.filter (fun f => !(hasKey r f))) ∧
    getVal rej "error_type" = some (.str "ValueError") ∧
    getVal rej "error_message" = some (.str ("Missing required fields "
      ++ pyStrListRepr (required_fields.filter (fun f => !(hasKey r f))))) := by
  have hsrc : "source_ip" ∈ required_fields.filter (fun f => !(hasKey r f)) :=
    List.mem_filter.mpr ⟨by simp [required_fields], by simp [hmiss]⟩
  have hfe : (required_fields.filter (fun f => !(hasKey r f))).isEmpty = false := by
    rcases hf : required_fields.filter (fun f => !(hasKey r f)) with _ | ⟨a, l⟩
    · rw [hf] at hsrc; simp at hsrc
    · rfl
  have hre : r.isEmpty = false := by
    rcases r with _ | ⟨p, t⟩
    · exact absurd rfl hne
    · rfl
  have hcr : checkRequired r = .error (pyValueError ("Missing required fields "
      ++ pyStrListRepr (required_fields.filter (fun f => !(hasKey r f))))) := by
    simp only [checkRequired, hfe]
    rfl
  refine ⟨?_, hsrc, ?_, ?_, ?_⟩
  · simp only [validateRecord, hre, Bool.false_eq_true, if_false, hcr]
  · intro f hf hkf
    exact List.mem_filter.mpr ⟨hf, by simp [hkf]⟩
  · unfold build_validation_error_record at hrej
    rcases hd : jsonDumpsStrict (.dict r) with _ | raw
    · rw [hd] at hrej; cases hrej
    · rw [hd] at hrej
      cases hrej
      simp [getVal, pyValueError]
  · unfold build_validation_error_record at hrej
    rcases hd : jsonDumpsStrict (.dict r) with _ | raw
    · rw [hd] at hrej; cases hrej
    · rw [hd] at hrej
      cases hrej
      simp [getVal, pyValueError]

/-- Witness for C3 at a concrete record lacking `source_ip`. -/
theorem C3_witness :
    validateRecord 0 0 0 c3rec =
      .error (pyValueError ("Missing required fields "
        ++ pyStrListRepr (required_fields.filter (fun f => !(hasKey c3rec f)))), c3rec) ∧
    "source_ip" ∈ required_fields.filter (fun f => !(hasKey c3rec f)) ∧
    getVal (exceptOkD (build_validation_error_record c3rec
        (pyValueError ("Missing required fields "
          ++ pyStrListRepr (required_fields.filter (fun f => !(hasKey c3rec f))))) 0) [])
      "error_type" = some (.str "ValueError") := by
  have h := C3_missing_field_rejection 0 0 0 0 c3rec
    (exceptOkD (build_validation_error_record c3rec
      (pyValueError ("Missing required fields "
        ++ pyStrListRepr (required_fields.filter (fun f => !(hasKey c3rec f))))) 0) [])
    (List.cons_ne_nil _ _) (by rfl) (by rfl)
  exact ⟨h.1, h.2.1, h.2.2.2.1⟩

/-- C3 counterexample: for the concrete record missing `source_ip`, the
RejectedEvent's `error_type` field literally holds `"ValueError"`, which
is not the `MissingFieldError` discriminator the claim states. -/
theorem C3_counterexample :
    (match validateRecord 0 0 0 c3rec with
     | .error (e, s) =>
       (match build_validation_error_record s e 0 with
        | .ok rej => getVal rej "error_type"
        | .error _ => Option.none)
     | .ok _ => Option.none) = some (.str "ValueError") ∧
    "ValueError" ≠ "MissingFieldError" :=
  ⟨by rfl, by decide⟩

/-- C6 (corrected): the validator mutates the caller's mapping before the
later checks run. A record rejected at the structure or required-fields
stage *is* returned unchanged (first conjunct), but a record rejected at
a later stage — here the severity domain check — is returned with the
optional-field normalization and key additions already applied: `host`
has been lower-cased/trimmed and five marker keys added, so the rejected
record is observationally different from the input. -/
theorem C6_in_place_mutation (now tN tP : Int) (r : PyRec) (hne : r ≠ []) :
    ((required_fields.filter (fun f => !(hasKey r f))).isEmpty = false →
      validateRecord now tN tP r =
        .error (pyValueError ("Missing required fields "
          ++ pyStrListRepr (required_fields.filter (fun f => !(hasKey r f)))), r)) ∧
    (validateRecord 1704103200 1704103200 1704103200 c6rec =
        .error (pyValueError "Invalid severity type", c6mut) ∧
      getVal c6mut "host" ≠ getVal c6rec "host" ∧
      hasKey c6mut "vendor" ≠ hasKey c6rec "vendor") := by
  refine ⟨?_, by rfl, ?_, ?_⟩
  · intro hfe
    have hre : r.isEmpty = false := by
      rcases r with _ | ⟨p, t⟩
      · exact absurd rfl hne
      · rfl
    have hcr : checkRequired r = .error (pyValueError ("Missing required fields "
        ++ pyStrListRepr (required_fields.filter (fun f => !(hasKey r f))))) := by
      simp only [checkRequired, hfe]
      rfl
    simp only [validateRecord, hre, Bool.false_eq_true, if_false, hcr]
  · simp [c6mut, c6rec, getVal]
  · simp [c6mut, c6rec, hasKey]

/-- Witness for C6 at a concrete record: a rejection at the
required-fields stage returns the mapping unchanged. -/
theorem C6_witness :
    validateRecord 0 0 0 [("event_id", PyVal.str "e")] =
      .error (pyValueError ("Missing required fields "
        ++ pyStrListRepr (required_fields.filter
          (fun f => !(hasKey [("event_id", PyVal.str "e")] f)))),
        [("event_id", PyVal.str "e")]) :=
  (C6_in_place_mutation 0 0 0 [("event_id", PyVal.str "e")]
    (List.cons_ne_nil _ _)).1 (by rfl)

/-- C6 counterexample: the record rejected at the severity domain check
comes back mutated — `host` normalized from `" X "` to `"x"` and marker
keys added — contradicting the claim that a rejected record is
observationally identical to the input. -/
theorem C6_counterexample :
    validateRecord 1704103200 1704103200 1704103200 c6rec =
      .error (pyValueError "Invalid severity type", c6mut) ∧
    getVal c6mut "host" = some (.str "x") ∧
    getVal c6rec "host" = some (.str " X ") ∧
    hasKey c6mut "vendor" = true ∧
    hasKey c6rec "vendor" = false :=
  ⟨by rfl, by rfl, by rfl, by rfl, by rfl⟩

/-! ### C9 — integer severities can never validate -/

theorem natReprAux_chars :
    ∀ (fuel n : Nat) (c : Char), c ∈ natReprAux fuel n → ∃ d, d ≤ 9 ∧ c = digitChar d := by
  intro fuel
  induction fuel with
  | zero => intro n c h; simp [natReprAux] at h
  | succ fuel ih =>
    intro n c h
    unfold natReprAux at h
    by_cases hn : n < 10
    · rw [if_pos hn] at h
      simp at h
      exact ⟨n, by omega, h⟩
    · rw [if_neg hn] at h
      rcases List.mem_append.mp h with h | h
      · exact ih _ c h
      · simp at h
        exact ⟨n % 10, by omega, h⟩

theorem digitChar_toNat_le {d : Nat} (hd : d ≤ 9) : (digitChar d).toNat ≤ 57 := by
  interval_cases d <;> decide

theorem intRepr_chars_le (i : Int) : ∀ c ∈ (intRepr i).data, c.toNat ≤ 57 := by
  intro c hc
  unfold intRepr at hc
  by_cases hi : i < 0
  · rw [if_pos hi] at hc
    rw [show ("-" ++ natRepr i.natAbs).data = '-' :: (natRepr i.natAbs).data from rfl] at hc
    rcases List.mem_cons.mp hc with h | h
    · rw [h]; decide
    · obtain ⟨d, hd, hcd⟩ := natReprAux_chars _ _ c h
      rw [hcd]; exact digitChar_toNat_le hd
  · rw [if_neg hi] at hc
    obtain ⟨d, hd, hcd⟩ := natReprAux_chars _ _ c hc
    rw [hcd]; exact digitChar_toNat_le hd

theorem pyStrip_chars_subset {s : String} {c : Char} (h : c ∈ (pyStrip s).data) :
    c ∈ s.data := by
  unfold pyStrip at h
  simp only [List.mem_reverse] at h
  have h1 := (List.dropWhile_sublist (l := (s.data.dropWhile pyIsSpace).reverse)
    (p := pyIsSpace)).mem h
  rw [List.mem_reverse] at h1
  exact (List.dropWhile_sublist (l := s.data) (p := pyIsSpace)).mem h1

theorem toLower_of_le57 {c : Char} (h : c.toNat ≤ 57) : c.toLower = c := by
  unfold Char.toLower
  rw [if_neg (by omega)]

theorem pyLower_chars_le {s : String} (hs : ∀ c ∈ s.data, c.toNat ≤ 57) :
    ∀ c ∈ (pyLower s).data, c.toNat ≤ 57 := by
  intro c hc
  unfold pyLower at hc
  simp only [List.mem_map] at hc
  obtain ⟨c0, hc0, hcl⟩ := hc
  rw [← hcl, toLower_of_le57 (hs c0 hc0)]
  exact hs c0 hc0

/-- The decimal string form of an integer is never an allowed severity. -/
theorem int_severity_not_allowed (i : Int) :
    allowed_severity.contains (pyLower (pyStrip (intRepr i))) = false := by
  by_contra hmem
  rw [Bool.not_eq_false] at hmem
  have hmem' : pyLower (pyStrip (intRepr i)) ∈ allowed_severity := by
    unfold List.contains at hmem
    exact List.elem_iff.mp hmem
  have hle : ∀ c ∈ (pyLower (pyStrip (intRepr i))).data, c.toNat ≤ 57 :=
    pyLower_chars_le (fun c hc => intRepr_chars_le i c (pyStrip_chars_subset hc))
  simp only [allowed_severity, List.mem_cons, List.not_mem_nil, or_false] at hmem'
  rcases hmem' with h | h | h | h
  · rw [h] at hle; exact absurd (hle 'l' (by decide)) (by decide)
  · rw [h] at hle; exact absurd (hle 'm' (by decide)) (by decide)
  · rw [h] at hle; exact absurd (hle 'h' (by decide)) (by decide)
  · rw [h] at hle; exact absurd (hle 'c' (by decide)) (by decide)

theorem optStep_ok_getVal_ne {r r' : PyRec} {f k : String}
    (h : optStep r f = .ok r') (hk : k ≠ f) : getVal r' k = getVal r k := by
  unfold optStep at h
  rcases hg : getVal r f with _ | v
  · rw [hg] at h
    cases h
    exact getVal_setVal_ne r f k _ hk
  · rw [hg] at h
    cases v with
    | str s => cases h; exact getVal_setVal_ne r f k _ hk
    | int n => cases h
    | bool b => cases h
    | none => cases h
    | dt t o => cases h
    | list xs => cases h
    | dict es => cases h

theorem optPassGo_preserves :
    ∀ (fields : List String) (r r' : PyRec), optPassGo r fields = .ok r' →
      ∀ k, k ∉ fields → getVal r' k = getVal r k := by
  intro fields
  induction fields with
  | nil =>
    intro r r' h k _
    cases h
    rfl
  | cons f fs ih =>
    intro r r' h k hk
    unfold optPassGo at h
    rcases hs : optStep r f with e | rn
    · rw [hs] at h; cases h
    · rw [hs] at h
      have h1 := ih rn r' h k (fun hm => hk (List.mem_cons_of_mem _ hm))
      rw [h1]
      exact optStep_ok_getVal_ne hs (fun he => hk (he ▸ List.mem_cons_self f fs))

theorem normStep_ok_inv {r r' : PyRec} {k : String} {tr : String → String}
    (h : normStep r k tr = .ok r') :
    ∃ v, getVal r k = some v ∧ r' = setVal r k (.str (tr (pyStr v))) := by
  unfold normStep at h
  rcases hg : getVal r k with _ | v
  · rw [hg] at h; cases h
  · rw [hg] at h; cases h; exact ⟨v, rfl, rfl⟩

/-- Inversion of a successful step-6 normalization: the seven required
fields were present, each is now the stripped (and for `event_type` /
`severity` lower-cased) string form of its previous value, and every
other key is untouched. -/
theorem normReq_ok_fields {r1 r2 : PyRec} (h : normReq r1 = .ok r2) :
    ∃ v1 v2 v3 v4 v5 v6 v7,
      getVal r1 "event_id" = some v1 ∧
      getVal r1 "event_time" = some v2 ∧
      getVal r1 "source_ip" = some v3 ∧
      getVal r1 "destination_ip" = some v4 ∧
      getVal r1 "event_type" = some v5 ∧
      getVal r1 "severity" = some v6 ∧
      getVal r1 "message" = some v7 ∧
      getVal r2 "event_id" = some (.str (pyStrip (pyStr v1))) ∧
      getVal r2 "event_time" = some (.str (pyStrip (pyStr v2))) ∧
      getVal r2 "source_ip" = some (.str (pyStrip (pyStr v3))) ∧
      getVal r2 "destination_ip" = some (.str (pyStrip (pyStr v4))) ∧
      getVal r2 "event_type" = some (.str (pyLower (pyStrip (pyStr v5)))) ∧
      getVal r2 "severity" = some (.str (pyLower (pyStrip (pyStr v6)))) ∧
      getVal r2 "message" = some (.str (pyStrip (pyStr v7))) ∧
      (∀ k, k ∉ required_fields → getVal r2 k = getVal r1 k) := by
  unfold normReq at h
  split at h
  · cases h
  rename_i rA hA
  split at h
  · cases h
  rename_i rB hB
  split at h
  · cases h
  rename_i rC hC
  split at h
  · cases h
  rename_i rD hD
  split at h
  · cases h
  rename_i rE hE
  split at h
  · cases h
  rename_i rF hF
  obtain ⟨v1, hg1, hrA⟩ := normStep_ok_inv hA
  subst hrA
  obtain ⟨v2, hg2, hrB⟩ := normStep_ok_inv hB
  subst hrB
  rw [getVal_setVal_ne _ _ _ _ (by decide)] at hg2
  obtain ⟨v3, hg3, hrC⟩ := normStep_ok_inv hC
  subst hrC
  rw [getVal_setVal_ne _ _ _ _ (by decide),
    getVal_setVal_ne _ _ _ _ (by decide)] at hg3
  obtain ⟨v4, hg4, hrD⟩ := normStep_ok_inv hD
  subst hrD
  rw [getVal_setVal_ne _ _ _ _ (by decide), getVal_setVal_ne _ _ _ _ (by decide),
    getVal_setVal_ne _ _ _ _ (by decide)] at hg4
  obtain ⟨v5, hg5, hrE⟩ := normStep_ok_inv hE
  subst hrE
  rw [getVal_setVal_ne _ _ _ _ (by decide), getVal_setVal_ne _ _ _ _ (by decide),
    getVal_setVal_ne _ _ _ _ (by decide), getVal_setVal_ne _ _ _ _ (by decide)] at hg5
  obtain ⟨v6, hg6, hrF⟩ := normStep_ok_inv hF
  subst hrF
  rw [getVal_setVal_ne _ _ _ _ (by decide), getVal_setVal_ne _ _ _ _ (by decide),
    getVal_setVal_ne _ _ _ _ (by decide), getVal_setVal_ne _ _ _ _ (by decide),
    getVal_setVal_ne _ _ _ _ (by decide)] at hg6
  obtain ⟨v7, hg7, rfl⟩ := normStep_ok_inv h
  rw [getVal_setVal_ne _ _ _ _ (by decide), getVal_setVal_ne _ _ _ _ (by decide),
    getVal_setVal_ne _ _ _ _ (by decide), getVal_setVal_ne _ _ _ _ (by decide),
    getVal_setVal_ne _ _ _ _ (by decide), getVal_setVal_ne _ _ _ _ (by decide)] at hg7
  refine ⟨v1, v2, v3, v4, v5, v6, v7, hg1, hg2, hg3, hg4, hg5, hg6, hg7,
    ?_, ?_, ?_, ?_, ?_, ?_, ?_, ?_⟩
  · rw [getVal_setVal_ne _ _ _ _ (by decide), getVal_setVal_ne _ _ _ _ (by decide),
      getVal_setVal_ne _ _ _ _ (by decide), getVal_setVal_ne _ _ _ _ (by decide),
      getVal_setVal_ne _ _ _ _ (by decide), getVal_setVal_ne _ _ _ _ (by decide),
      getVal_setVal_self]
  · rw [getVal_setVal_ne _ _ _ _ (by decide), getVal_setVal_ne _ _ _ _ (by decide),
      getVal_setVal_ne _ _ _ _ (by decide), getVal_setVal_ne _ _ _ _ (by decide),
      getVal_setVal_ne _ _ _ _ (by decide), getVal_setVal_self]
  · rw [getVal_setVal_ne _ _ _ _ (by decide), getVal_setVal_ne _ _ _ _ (by decide),
      getVal_setVal_ne _ _ _ _ (by decide), getVal_setVal_ne _ _ _ _ (by decide),
      getVal_setVal_self]
  · rw [getVal_setVal_ne _ _ _ _ (by decide), getVal_setVal_ne _ _ _ _ (by decide),
      getVal_setVal_ne _ _ _ _ (by decide), getVal_setVal_self]
  · rw [getVal_setVal_ne _ _ _ _ (by decide), getVal_setVal_ne _ _ _ _ (by decide),
      getVal_setVal_self]
  · rw [getVal_setVal_ne _ _ _ _ (by decide), getVal_setVal_self]
  · rw [getVal_setVal_self]
  · intro k hk
    have hne : ¬(k = "event_id") ∧ ¬(k = "event_time") ∧ ¬(k = "source_ip") ∧
        ¬(k = "destination_ip") ∧ ¬(k = "event_type") ∧ ¬(k = "severity") ∧
        ¬(k = "message") := by
      simpa [required_fields, not_or] using hk
    rw [getVal_setVal_ne _ _ _ _ hne.2.2.2.2.2.2, getVal_setVal_ne _ _ _ _ hne.2.2.2.2.2.1,
      getVal_setVal_ne _ _ _ _ hne.2.2.2.2.1, getVal_setVal_ne _ _ _ _ hne.2.2.2.1,
      getVal_setVal_ne _ _ _ _ hne.2.2.1, getVal_setVal_ne _ _ _ _ hne.2.1,
      getVal_setVal_ne _ _ _ _ hne.1]

/-- C9 (confirmed): a record whose `severity` is an integer can never
validate. The type check tolerates string-or-int, but step 6 stringifies
and lower-cases the value, the decimal form of an integer is not in
{low, medium, high, critical}, and the domain check therefore rejects —
the legacy numeric-severity acceptance is unreachable as an overall
acceptance path. -/
theorem C9_int_severity_never_validates (now tN tP : Int) (r : PyRec) (n : Int)
    (h : getVal r "severity" = some (.int n)) :
    vrOk (validateRecord now tN tP r) = false := by
  rcases hv : validateRecord now tN tP r with e | out
  · rfl
  · exfalso
    unfold validateRecord at hv
    split at hv
    · cases hv
    split at hv
    · cases hv
    split at hv
    · cases hv
    rename_i r1 hopt
    split at hv
    · cases hv
    split at hv
    · cases hv
    split at hv
    · cases hv
    rename_i r2 hnorm
    split at hv
    · cases hv
    split at hv
    · cases hv
    split at hv
    · cases hv
    split at hv
    · cases hv
    split at hv
    · cases hv
    split at hv
    · cases hv
    rename_i hdom
    have h1 : getVal r1 "severity" = some (.int n) := by
      rw [optPassGo_preserves optional_string_fields r r1 hopt "severity" (by decide)]
      exact h
    obtain ⟨v1, v2, v3, v4, v5, v6, v7, _, _, _, _, _, hs1, _, _, _, _, _, _, hs2, _, _⟩ :=
      normReq_ok_fields hnorm
    rw [h1] at hs1
    cases hs1
    unfold domainChecks at hdom
    split at hdom
    · cases hdom
    rename_i hsev
    unfold domainCheck getItem at hsev
    simp only [hs2] at hsev
    rw [show pyStr (PyVal.int n) = intRepr n from rfl] at hsev
    rw [int_severity_not_allowed n] at hsev
    simp at hsev

/-- Witness for C9: a concrete, otherwise fully valid record with the
legacy integer severity `3` does not validate. -/
theorem C9_witness :
    vrOk (validateRecord 1704103200 1704103200 1704103200
      [("event_id", .str "evt_1"),
       ("event_time", .str "2024-01-01T10:00:00Z"),
       ("source_ip", .str "45.19.34.10"),
       ("destination_ip", .str "10.0.0.5"),
       ("event_type", .str "port_scan"),
       ("severity", .int 3),
       ("message", .str "m")]) = false :=
  C9_int_severity_never_validates 1704103200 1704103200 1704103200
    [("event_id", .str "evt_1"),
     ("event_time", .str "2024-01-01T10:00:00Z"),
     ("source_ip", .str "45.19.34.10"),
     ("destination_ip", .str "10.0.0.5"),
     ("event_type", .str "port_scan"),
     ("severity", .int 3),
     ("message", .str "m")] 3 (by rfl)

/-! ### C10 — message fallback in the canonical record builder -/

/-- C10 (corrected): the canonical record built from any raw API event
has a `message` key whose value is non-null and truthy (the
`description or "No message provided"` fallback), and an absent, null or
empty-string description always yields the fallback string — so such
records pass the missing-field and non-empty message checks. (The claim's
stronger "the checks always pass" is refuted by the counterexample:
a whitespace-only description is truthy, skips the fallback, and is then
emptied by trimming and rejected.) -/
theorem C10_message_fallback (e : PyRec) (b : String) (c : PyRec)
    (hb : build_raw_security_log (.dict e) b = .ok c) :
    hasKey c "message" = true ∧
    (∀ m, getVal c "message" = some m → pyTruthy m = true) ∧
    ((getVal e "description" = Option.none ∨ getVal e "description" = some .none ∨
        getVal e "description" = some (.str "")) →
      getVal c "message" = some (.str "No message provided")) := by
  simp only [build_raw_security_log] at hb
  rcases hd : jsonDumpsDefaultStr (.dict e) with _ | payload
  · rw [hd] at hb; cases hb
  rw [hd] at hb
  cases hb
  have hget : getVal
      [("batch_id", PyVal.str b),
       ("event_id", dictGet e "event_id"),
       ("event_time", dictGet e "timestamp"),
       ("source_ip", dictGet e "source_ip"),
       ("destination_ip", dictGet e "destination_ip"),
       ("event_type", dictGet e "event_type"),
       ("severity", dictGet e "severity"),
       ("message", pyOr (dictGet e "description") (.str "No message provided")),
       ("raw_payload", PyVal.str payload)] "message"
      = some (pyOr (dictGet e "description") (.str "No message provided")) := by rfl
  refine ⟨by rfl, ?_, ?_⟩
  · intro m hm
    rw [hget] at hm
    cases hm
    unfold pyOr
    rcases ht : pyTruthy (dictGet e "description")
    · rw [if_neg (by simp [ht])]
      rfl
    · rw [if_pos (by simp [ht])]
      exact ht
  · intro hdesc
    rw [hget]
    rcases hdesc with hh | hh | hh <;>
      simp [pyOr, dictGet, hh, pyTruthy]

/-- Witness for C10: a raw event with no `description` key yields a
canonical record whose message is the fallback string. -/
theorem C10_witness :
    hasKey (exceptOkD (build_raw_security_log
      (.dict [("event_id", .str "evt_1"), ("severity", .str "high")]) "b1") [])
      "message" = true ∧
    getVal (exceptOkD (build_raw_security_log
      (.dict [("event_id", .str "evt_1"), ("severity", .str "high")]) "b1") [])
      "message" = some (.str "No message provided") := by
  have h := C10_message_fallback
    [("event_id", .str "evt_1"), ("severity", .str "high")] "b1"
    (exceptOkD (build_raw_security_log
      (.dict [("event_id", .str "evt_1"), ("severity", .str "high")]) "b1") [])
    (by rfl)
  exact ⟨h.1, h.2.2 (Or.inl (by rfl))⟩

set_option maxRecDepth 100000 in
/-- C10 counterexample: a raw event whose description is the single
space `" "` — truthy, so the fallback is skipped — produces a built
message that is non-null and non-empty, yet the validator's trimming
empties it and the non-empty check on `message` fails, rejecting the
record; the claim says those checks always pass for built records. -/
theorem C10_counterexample :
    (match build_raw_security_log (.dict
        [("event_id", .str "evt_1"),
         ("timestamp", .str "2024-01-01T10:00:00Z"),
         ("source_ip", .str "45.19.34.10"),
         ("destination_ip", .str "10.0.0.5"),
         ("event_type", .str "port_scan"),
         ("severity", .str "high"),
         ("description", .str " ")]) "b1" with
     | .ok c => getVal c "message"
     | .error _ => Option.none) = some (.str " ") ∧
    (match build_raw_security_log (.dict
        [("event_id", .str "evt_1"),
         ("timestamp", .str "2024-01-01T10:00:00Z"),
         ("source_ip", .str "45.19.34.10"),
         ("destination_ip", .str "10.0.0.5"),
         ("event_type", .str "port_scan"),
         ("severity", .str "high"),
         ("description", .str " ")]) "b1" with
     | .ok c =>
       (match validateRecord 1704103200 1704103200 1704103200 c with
        | .error (er, _) => some er.emsg
        | .ok _ => Option.none)
     | .error _ => Option.none) = some "message does NOT exist" :=
  ⟨by rfl, by rfl⟩

/-! ### C5 — round trip on valid input: infrastructure -/

theorem hasKey_false_of_getVal_none {r : PyRec} {k : String}
    (h : getVal r k = Option.none) : hasKey r k = false := by
  induction r with
  | nil => rfl
  | cons p rest ih =>
    by_cases hp : p.1 = k
    · simp [getVal, hp] at h
    · simp only [getVal, hp, if_neg, not_false_iff] at h
      simp [hasKey, hp, ih h]

theorem isOctet_length {cs : List Char} (h : isOctet cs = true) :
    1 ≤ cs.length ∧ cs.length ≤ 3 := by
  rcases cs with _ | ⟨a, _ | ⟨b, _ | ⟨c, _ | _⟩⟩⟩ <;> simp_all [isOctet]

theorem splitOnDot_length :
    ∀ cs : List Char, splitOnDot cs ≠ [] ∧
      ((splitOnDot cs).map List.length).sum + ((splitOnDot cs).length - 1)
        = cs.length := by
  intro cs
  induction cs with
  | nil => exact ⟨by simp [splitOnDot], by simp [splitOnDot]⟩
  | cons c rest ih =>
    obtain ⟨hne, hsum⟩ := ih
    unfold splitOnDot
    rcases hs : splitOnDot rest with _ | ⟨g, gs⟩
    · exact absurd hs hne
    · rw [hs] at hsum
      by_cases hc : c = '.'
      · refine ⟨by simp [hc], ?_⟩
        simp only [hc, if_pos, List.map_cons, List.sum_cons, List.length_cons,
          List.length_nil, reduceIte] at *
        omega
      · refine ⟨by simp [hc], ?_⟩
        simp only [hc, if_neg, List.map_cons, List.sum_cons, List.length_cons,
          List.length_nil, reduceIte] at *
        omega

/-- A dotted-quad match forces the 7–15 character length bounds. -/
theorem ipv4Match_length {s : String} (h : ipv4Match s = true) :
    7 ≤ s.length ∧ s.length ≤ 15 := by
  unfold ipv4Match at h
  rcases hs : splitOnDot s.data with _ | ⟨a, _ | ⟨b, _ | ⟨c, _ | ⟨d, _ | _⟩⟩⟩⟩ <;>
    rw [hs] at h <;> try cases h
  simp only [Bool.and_eq_true] at h
  obtain ⟨⟨⟨ha, hb⟩, hc⟩, hd⟩ := h
  have la := isOctet_length ha
  have lb := isOctet_length hb
  have lc := isOctet_length hc
  have ld := isOctet_length hd
  have hlen := (splitOnDot_length s.data).2
  rw [hs] at hlen
  simp only [List.map_cons, List.map_nil, List.sum_cons, List.sum_nil,
    List.length_cons, List.length_nil] at hlen
  have : s.length = s.data.length := rfl
  omega

theorem str_ne_empty_of_len {s : String} (h : 1 ≤ s.length) : s ≠ "" := by
  intro hs
  rw [hs] at h
  simp [String.length] at h

theorem truthy_of_ne_empty {s : String} (h : s ≠ "") :
    pyTruthy (.str s) = true := by
  simp [pyTruthy, h]

theorem len_pos_of_ne_empty {s : String} (h : s ≠ "") : 1 ≤ s.length := by
  rcases hs : s.data with _ | ⟨c, cs⟩
  · exact absurd (by cases s; simp at hs; simp [hs]) h
  · have : s.length = s.data.length := rfl
    rw [this, hs]
    simp

theorem normStep_ok_of_present {r : PyRec} {k : String} {tr : String → String}
    (h : (getVal r k).isSome) :
    ∃ r', normStep r k tr = .ok r' ∧
      ∀ k', (getVal r k').isSome → (getVal r' k').isSome := by
  rcases hg : getVal r k with _ | v
  · rw [hg] at h; cases h
  · refine ⟨setVal r k (.str (tr (pyStr v))), by unfold normStep; rw [hg], ?_⟩
    intro k' hk'
    by_cases he : k' = k
    · rw [he, getVal_setVal_self]; rfl
    · rw [getVal_setVal_ne _ _ _ _ he]; exact hk'

/-- Step 6 succeeds whenever all seven required fields are present. -/
theorem normReq_ok_exists {r1 : PyRec}
    (hp : ∀ f ∈ required_fields, (getVal r1 f).isSome) :
    ∃ r2, normReq r1 = .ok r2 := by
  obtain ⟨rA, hA, pA⟩ := @normStep_ok_of_present _ "event_id" pyStrip
    (hp "event_id" (by decide))
  obtain ⟨rB, hB, pB⟩ := @normStep_ok_of_present _ "event_time" pyStrip
    (pA _ (hp "event_time" (by decide)))
  obtain ⟨rC, hC, pC⟩ := @normStep_ok_of_present _ "source_ip" pyStrip
    (pB _ (pA _ (hp "source_ip" (by decide))))
  obtain ⟨rD, hD, pD⟩ := @normStep_ok_of_present _ "destination_ip" pyStrip
    (pC _ (pB _ (pA _ (hp "destination_ip" (by decide)))))
  obtain ⟨rE, hE, pE⟩ := @normStep_ok_of_present _ "event_type"
    (fun s => pyLower (pyStrip s))
    (pD _ (pC _ (pB _ (pA _ (hp "event_type" (by decide))))))
  obtain ⟨rF, hF, pF⟩ := @normStep_ok_of_present _ "severity"
    (fun s => pyLower (pyStrip s))
    (pE _ (pD _ (pC _ (pB _ (pA _ (hp "severity" (by decide)))))))
  obtain ⟨rG, hG, _⟩ := @normStep_ok_of_present _ "message" pyStrip
    (pF _ (pE _ (pD _ (pC _ (pB _ (pA _ (hp "message" (by decide))))))))
  refine ⟨rG, ?_⟩
  unfold normReq
  simp only [hA, hB, hC, hD, hE, hF, hG]

/-- The step-3 loop succeeds when every optional field is absent or holds
a string, and it touches no other key. -/
theorem optPassGo_ok :
    ∀ (fields : List String), fields.Nodup → ∀ (r : PyRec),
      (∀ f ∈ fields, hasKey r f = false ∨ ∃ s, getVal r f = some (.str s)) →
      ∃ r', optPassGo r fields = .ok r' ∧
        ∀ k, k ∉ fields → getVal r' k = getVal r k := by
  intro fields
  induction fields with
  | nil => exact fun _ r _ => ⟨r, rfl, fun _ _ => rfl⟩
  | cons f fs ih =>
    intro hnd r hcond
    have hnd' := (List.nodup_cons.mp hnd)
    have hstep : ∃ v, optStep r f = .ok (setVal r f v) := by
      rcases hcond f (by simp) with hab | ⟨s, hs⟩
      · exact ⟨.none, by unfold optStep; rw [getVal_none_of_not_hasKey hab]⟩
      · exact ⟨.str (pyLower (pyStrip s)), by unfold optStep; rw [hs]⟩
    obtain ⟨v, hv⟩ := hstep
    have hcond' : ∀ g ∈ fs, hasKey (setVal r f v) g = false ∨
        ∃ s, getVal (setVal r f v) g = some (.str s) := by
      intro g hg
      have hgf : g ≠ f := fun he => hnd'.1 (he ▸ hg)
      rcases hcond g (by simp [hg]) with hab | ⟨s, hs⟩
      · exact Or.inl (by rw [hasKey_setVal_ne _ _ _ _ hgf]; exact hab)
      · exact Or.inr ⟨s, by rw [getVal_setVal_ne _ _ _ _ hgf]; exact hs⟩
    obtain ⟨r', hr', hpres⟩ := ih hnd'.2 (setVal r f v) hcond'
    refine ⟨r', ?_, ?_⟩
    · unfold optPassGo
      rw [hv]
      exact hr'
    · intro k hk
      have hkf : k ≠ f := fun he => hk (by simp [he])
      rw [hpres k (fun hm => hk (by simp [hm])), getVal_setVal_ne _ _ _ _ hkf]

theorem allowed_severity_bounds {s : String} (h : s ∈ allowed_severity) :
    1 ≤ s.length ∧ s.length ≤ 10 ∧ s ≠ "" := by
  simp only [allowed_severity, List.mem_cons, List.not_mem_nil, or_false] at h
  rcases h with h | h | h | h <;> subst h <;> refine ⟨by decide, by decide, by decide⟩

theorem allowed_event_types_bounds {s : String} (h : s ∈ allowed_event_types) :
    1 ≤ s.length ∧ s.length ≤ 50 ∧ s ≠ "" := by
  simp only [allowed_event_types, List.mem_cons, List.not_mem_nil, or_false] at h
  rcases h with h | h | h | h | h | h | h | h | h | h <;> subst h <;>
    refine ⟨by decide, by decide, by decide⟩

theorem pyEq_str_self (s : String) : pyEq (.str s) (.str s) = true := by
  unfold pyEq pyFuel
  show pyEqF (999 + 1) (.str s) (.str s) = true
  simp [pyEqF]

/-- Forward computation of the enrichment of a record with the three
fields it reads present (and `message` a string). -/
theorem enrich_ok_of_fields {r2 : PyRec} {tN tP : Int} {sv ev : PyVal} {ms : String}
    (hsev : getVal r2 "severity" = some sv)
    (hety : getVal r2 "event_type" = some ev)
    (hmsg : getVal r2 "message" = some (.str ms)) :
    ∃ out, enrich r2 tN tP = .ok out ∧
      getVal out "severity_level" = some sv ∧
      getVal out "severity" = some sv ∧
      getVal out "category" = some ev ∧
      getVal out "event_type" = some ev ∧
      getVal out "normalized_message" = some (.str (pyStrip ms)) ∧
      getVal out "processed_at" = some (.dt tP (some 0)) ∧
      getVal out "message" = some (.str ms) ∧
      (∀ k, k ∉ ["normalized_at", "severity_level", "category",
          "normalized_message", "processed_at"] → getVal out k = getVal r2 k) := by
  have g1 : getVal (setVal r2 "normalized_at" (.str (dtIso tN (some 0)))) "severity"
      = some sv := by rw [getVal_setVal_ne _ _ _ _ (by decide)]; exact hsev
  have g2 : getVal (setVal (setVal r2 "normalized_at" (.str (dtIso tN (some 0))))
      "severity_level" sv) "event_type" = some ev := by
    rw [getVal_setVal_ne _ _ _ _ (by decide), getVal_setVal_ne _ _ _ _ (by decide)]
    exact hety
  have g3 : getVal (setVal (setVal (setVal r2 "normalized_at"
      (.str (dtIso tN (some 0)))) "severity_level" sv) "category" ev) "message"
      = some (.str ms) := by
    rw [getVal_setVal_ne _ _ _ _ (by decide), getVal_setVal_ne _ _ _ _ (by decide),
      getVal_setVal_ne _ _ _ _ (by decide)]
    exact hmsg
  refine ⟨setVal (setVal (setVal (setVal (setVal r2 "normalized_at"
      (.str (dtIso tN (some 0)))) "severity_level" sv) "category" ev)
      "normalized_message" (.str (pyStrip ms))) "processed_at" (.dt tP (some 0)),
    ?_, ?_, ?_, ?_, ?_, ?_, ?_, ?_, ?_⟩
  · unfold enrich
    simp only [g1, g2, g3]
  · rw [getVal_setVal_ne _ _ _ _ (by decide), getVal_setVal_ne _ _ _ _ (by decide),
      getVal_setVal_ne _ _ _ _ (by decide), getVal_setVal_self]
  · rw [getVal_setVal_ne _ _ _ _ (by decide), getVal_setVal_ne _ _ _ _ (by decide),
      getVal_setVal_ne _ _ _ _ (by decide), getVal_setVal_ne _ _ _ _ (by decide)]
    exact g1
  · rw [getVal_setVal_ne _ _ _ _ (by decide), getVal_setVal_ne _ _ _ _ (by decide),
      getVal_setVal_self]
  · rw [getVal_setVal_ne _ _ _ _ (by decide), getVal_setVal_ne _ _ _ _ (by decide),
      getVal_setVal_ne _ _ _ _ (by decide)]
    exact g2
  · rw [getVal_setVal_ne _ _ _ _ (by decide), getVal_setVal_self]
  · rw [getVal_setVal_self]
  · rw [getVal_setVal_ne _ _ _ _ (by decide), getVal_setVal_ne _ _ _ _ (by decide)]
    exact g3
  · intro k hk
    have hne : ¬(k = "normalized_at") ∧ ¬(k = "severity_level") ∧ ¬(k = "category") ∧
        ¬(k = "normalized_message") ∧ ¬(k = "processed_at") := by
      simpa [not_or] using hk
    rw [getVal_setVal_ne _ _ _ _ hne.2.2.2.2, getVal_setVal_ne _ _ _ _ hne.2.2.2.1,
      getVal_setVal_ne _ _ _ _ hne.2.2.1, getVal_setVal_ne _ _ _ _ hne.2.1,
      getVal_setVal_ne _ _ _ _ hne.1]

/-- The post-transform validator accepts any record with the shape the
successful pipeline produces. -/
theorem validate_transformation_ok {out : PyRec} {s1 s2 s3 s4 evs svs nm : String}
    {tP : Int}
    (heid : getVal out "event_id" = some (.str s1))
    (het : getVal out "event_time" = some (.str s2))
    (hsip : getVal out "source_ip" = some (.str s3))
    (hdip : getVal out "destination_ip" = some (.str s4))
    (hety : getVal out "event_type" = some (.str evs))
    (hsev : getVal out "severity" = some (.str svs))
    (hsl : getVal out "severity_level" = some (.str svs))
    (hcat : getVal out "category" = some (.str evs))
    (hnm : getVal out "normalized_message" = some (.str nm))
    (hnm2 : pyStrip nm ≠ "")
    (hpa : getVal out "processed_at" = some (.dt tP (some 0))) :
    validate_transformation out = .ok () := by
  unfold validate_transformation
  have m1 : REQUIRED_CANONICAL_FIELDS.filter (missingOrNone out) = [] := by
    simp [REQUIRED_CANONICAL_FIELDS, List.filter_cons, missingOrNone,
      heid, het, hsip, hdip, hety, hsev]
  have m2 : REQUIRED_TRANSFORM_FIELDS.filter (missingOrNone out) = [] := by
    simp [REQUIRED_TRANSFORM_FIELDS, List.filter_cons, missingOrNone,
      hsl, hcat, hnm, hpa]
  have hb : (pyStrip nm == "") = false := by simp [hnm2]
  rw [m1, m2]
  simp only [List.isEmpty_nil, Bool.not_true, Bool.false_eq_true, if_false,
    dictGet, hsl, hsev, hcat, hety, hnm, hpa, pyEq_str_self, hb, reduceIte]

/-- C5 (corrected): a raw record whose seven required fields are present
as strings, whose (trimmed) addresses are dotted-quad IPv4, whose
normalized event type and severity lie in the allowed sets, whose event
time parses and lies in the acceptance window, whose optional fields are
absent or strings, which carries no (non-null) raw payload, *and whose
trimmed `event_id` and `message` respect the length bounds* (the claim
omits these last conditions; the counterexample shows a 129-character
`event_id` is rejected) validates into a NormalizedEvent with
`severity_level = severity`, `category = event_type`, a non-blank trimmed
`normalized_message`, and a timezone-aware UTC `processed_at`; the
post-transform validator accepts it. -/
theorem C5_round_trip (now tN tP : Int) (r : PyRec)
    (eid et sip dip ety sev msg : String) (pd : PDT)
    (h1 : getVal r "event_id" = some (.str eid))
    (h2 : getVal r "event_time" = some (.str et))
    (h3 : getVal r "source_ip" = some (.str sip))
    (h4 : getVal r "destination_ip" = some (.str dip))
    (h5 : getVal r "event_type" = some (.str ety))
    (h6 : getVal r "severity" = some (.str sev))
    (h7 : getVal r "message" = some (.str msg))
    (hip1 : ipv4Match (pyStrip sip) = true)
    (hip2 : ipv4Match (pyStrip dip) = true)
    (hety : pyLower (pyStrip ety) ∈ allowed_event_types)
    (hsev : pyLower (pyStrip sev) ∈ allowed_severity)
    (hts : fromIsoFormat (fixTs (pyStrip et)) = some pd)
    (hfut : pd.wall ≤ now)
    (hstale : now - pd.wall ≤ 90 * 86400)
    (heid : 1 ≤ (pyStrip eid).length ∧ (pyStrip eid).length ≤ 128)
    (hmsg : 1 ≤ (pyStrip msg).length ∧ (pyStrip msg).length ≤ 2000)
    (hopt : ∀ f ∈ optional_string_fields,
        hasKey r f = false ∨ ∃ s, getVal r f = some (.str s))
    (hpay : hasKey r "raw_payload" = false ∨ getVal r "raw_payload" = some .none) :
    ∃ out, validateRecord now tN tP r = .ok out ∧
      getVal out "severity_level" = getVal out "severity" ∧
      getVal out "severity" = some (.str (pyLower (pyStrip sev))) ∧
      getVal out "category" = getVal out "event_type" ∧
      getVal out "event_type" = some (.str (pyLower (pyStrip ety))) ∧
      getVal out "normalized_message" = some (.str (pyStrip msg)) ∧
      pyStrip msg ≠ "" ∧
      getVal out "processed_at" = some (.dt tP (some 0)) ∧
      validate_transformation out = .ok () := by
  have hne : r.isEmpty = false := by
    rcases r with _ | ⟨p, t⟩
    · simp [getVal] at h1
    · rfl
  have hcr : checkRequired r = .ok () := by
    unfold checkRequired
    have hfil : required_fields.filter (fun f => !(hasKey r f)) = [] := by
      simp [required_fields, List.filter_cons, hasKey_of_getVal h1,
        hasKey_of_getVal h2, hasKey_of_getVal h3, hasKey_of_getVal h4,
        hasKey_of_getVal h5, hasKey_of_getVal h6, hasKey_of_getVal h7]
    rw [hfil]
    rfl
  obtain ⟨r1, hopt', hpres⟩ := optPassGo_ok optional_string_fields (by decide) r hopt
  have hooo : optPass r = .ok r1 := hopt'
  have g1 : getVal r1 "event_id" = some (.str eid) := by
    rw [hpres _ (by decide)]; exact h1
  have g2 : getVal r1 "event_time" = some (.str et) := by
    rw [hpres _ (by decide)]; exact h2
  have g3 : getVal r1 "source_ip" = some (.str sip) := by
    rw [hpres _ (by decide)]; exact h3
  have g4 : getVal r1 "destination_ip" = some (.str dip) := by
    rw [hpres _ (by decide)]; exact h4
  have g5 : getVal r1 "event_type" = some (.str ety) := by
    rw [hpres _ (by decide)]; exact h5
  have g6 : getVal r1 "severity" = some (.str sev) := by
    rw [hpres _ (by decide)]; exact h6
  have g7 : getVal r1 "message" = some (.str msg) := by
    rw [hpres _ (by decide)]; exact h7
  have htc : typeChecks r1 = .ok () := by
    simp [typeChecks, typeChecksB, typeCheckStr, getItem, isStr,
      g1, g2, g3, g4, g5, g6, g7]
  have hpc : payloadCheck r1 = .ok () := by
    have gp : getVal r1 "raw_payload" = getVal r "raw_payload" :=
      hpres _ (by decide)
    unfold payloadCheck
    rcases hpay with hq | hq
    · rw [gp, getVal_none_of_not_hasKey hq]
    · rw [gp, hq]
  obtain ⟨r2, hnr⟩ := @normReq_ok_exists r1 (by
    intro f hf
    fin_cases hf <;> simp [g1, g2, g3, g4, g5, g6, g7])
  obtain ⟨v1, v2, v3, v4, v5, v6, v7, q1, q2, q3, q4, q5, q6, q7,
    w1, w2, w3, w4, w5, w6, w7, wp⟩ := normReq_ok_fields hnr
  rw [g1] at q1; cases q1
  rw [g2] at q2; cases q2
  rw [g3] at q3; cases q3
  rw [g4] at q4; cases q4
  rw [g5] at q5; cases q5
  rw [g6] at q6; cases q6
  rw [g7] at q7; cases q7
  have W1 : getVal r2 "event_id" = some (.str (pyStrip eid)) := w1
  have W2 : getVal r2 "event_time" = some (.str (pyStrip et)) := w2
  have W3 : getVal r2 "source_ip" = some (.str (pyStrip sip)) := w3
  have W4 : getVal r2 "destination_ip" = some (.str (pyStrip dip)) := w4
  have W5 : getVal r2 "event_type" = some (.str (pyLower (pyStrip ety))) := w5
  have W6 : getVal r2 "severity" = some (.str (pyLower (pyStrip sev))) := w6
  have W7 : getVal r2 "message" = some (.str (pyStrip msg)) := w7
  have hetne : pyStrip et ≠ "" := by
    intro hh
    rw [hh] at hts
    rw [show fromIsoFormat (fixTs "") = Option.none from rfl] at hts
    cases hts
  have t1 : pyTruthy (.str (pyStrip eid)) = true :=
    truthy_of_ne_empty (str_ne_empty_of_len heid.1)
  have t2 : pyTruthy (.str (pyStrip et)) = true := truthy_of_ne_empty hetne
  have t3 : pyTruthy (.str (pyStrip sip)) = true :=
    truthy_of_ne_empty (str_ne_empty_of_len (by have := (ipv4Match_length hip1).1; omega))
  have t4 : pyTruthy (.str (pyStrip dip)) = true :=
    truthy_of_ne_empty (str_ne_empty_of_len (by have := (ipv4Match_length hip2).1; omega))
  have t5 : pyTruthy (.str (pyLower (pyStrip ety))) = true :=
    truthy_of_ne_empty (allowed_event_types_bounds hety).2.2
  have t6 : pyTruthy (.str (pyLower (pyStrip sev))) = true :=
    truthy_of_ne_empty (allowed_severity_bounds hsev).2.2
  have t7 : pyTruthy (.str (pyStrip msg)) = true :=
    truthy_of_ne_empty (str_ne_empty_of_len hmsg.1)
  have hec : emptyChecks r2 = .ok () := by
    simp [emptyChecks, emptyCheck, getItem, W1, W2, W3, W4, W5, W6, W7,
      t1, t2, t3, t4, t5, t6, t7]
  have tsp : tsParse (.str (pyStrip et)) = .ok pd := by
    unfold tsParse
    rw [show pyStrip (pyStr (PyVal.str (pyStrip et))) = pyStrip et from pyStrip_idem et,
      hts]
  have htmp : temporalCheck pd.wall now = .ok () := by
    unfold temporalCheck
    rw [if_neg (by omega), if_neg ((fdiv_le_90_iff (now - pd.wall)).mpr (by omega))]
  have hip : ipChecks r2 = .ok () := by
    simp [ipChecks, ipCheck, getItem, W3, W4, hip1, hip2]
  have hdm : domainChecks r2 = .ok () := by
    simp [domainChecks, domainCheck, getItem, W5, W6, hsev, hety]
  have hlen : lengthChecks r2 = .ok () := by
    have b1 : (1 ≤ (pyStrip eid).length && (pyStrip eid).length ≤ 128) = true := by
      simp [heid.1, heid.2]
    have b2 : (7 ≤ (pyStrip sip).length && (pyStrip sip).length ≤ 15) = true := by
      have := ipv4Match_length hip1
      simp [this.1, this.2]
    have b3 : (7 ≤ (pyStrip dip).length && (pyStrip dip).length ≤ 15) = true := by
      have := ipv4Match_length hip2
      simp [this.1, this.2]
    have b4 : (1 ≤ (pyLower (pyStrip ety)).length && (pyLower (pyStrip ety)).length ≤ 50)
        = true := by
      have := allowed_event_types_bounds hety
      simp [this.1, this.2.1]
    have b5 : (1 ≤ (pyLower (pyStrip sev)).length && (pyLower (pyStrip sev)).length ≤ 10)
        = true := by
      have := allowed_severity_bounds hsev
      simp [this.1, this.2.1]
    have b6 : (1 ≤ (pyStrip msg).length && (pyStrip msg).length ≤ 2000) = true := by
      simp [hmsg.1, hmsg.2]
    simp [lengthChecks, lengthCheck, getItem, W1, W3, W4, W5, W6, W7,
      b1, b2, b3, b4, b5, b6]
  obtain ⟨out, heok, e1, e2, e3, e4, e5, e6, e7, epres⟩ :=
    @enrich_ok_of_fields _ tN tP _ _ _ W6 W5 W7
  have e5' : getVal out "normalized_message" = some (.str (pyStrip msg)) := by
    rw [e5, pyStrip_idem]
  refine ⟨out, ?_, ?_, ?_, ?_, ?_, e5', str_ne_empty_of_len hmsg.1, e6, ?_⟩
  · simp only [validateRecord, hne, Bool.false_eq_true, if_false, hcr, hooo,
      htc, hpc, hnr, hec, W2, tsp, htmp, hip, hdm, hlen, heok]
  · rw [e1, e2]
  · exact e2
  · rw [e3, e4]
  · exact e4
  · exact validate_transformation_ok
      (by rw [epres _ (by decide)]; exact W1)
      (by rw [epres _ (by decide)]; exact W2)
      (by rw [epres _ (by decide)]; exact W3)
      (by rw [epres _ (by decide)]; exact W4)
      e4 e2 e1 e3 e5'
      (by rw [pyStrip_idem]; exact str_ne_empty_of_len hmsg.1)
      e6

set_option maxRecDepth 200000 in
/-- Witness for C5: the spec's scenario record validates (with `now`
equal to its event time) and passes the post-transform validator. -/
theorem C5_witness :
    vrOk (validateRecord 1704103200 1704103200 1704103200 c5rec) = true ∧
    (match validateRecord 1704103200 1704103200 1704103200 c5rec with
     | .ok o => validate_transformation o
     | .error e => .error e.1) = .ok () := by
  obtain ⟨out, hout, _, _, _, _, _, _, _, hvt⟩ :=
    C5_round_trip 1704103200 1704103200 1704103200 c5rec
      "evt_1" "2024-01-01T10:00:00Z" "45.19.34.10" "10.0.0.5"
      "UNAUTHORIZED_LOGIN" "HIGH" "test" ⟨1704103200, some 0⟩
      (by rfl) (by rfl) (by rfl) (by rfl) (by rfl) (by rfl) (by rfl)
      (by rfl) (by rfl) (by decide) (by decide) (by rfl)
      (by decide) (by decide) ⟨by decide, by decide⟩ ⟨by decide, by decide⟩
      (by intro f hf; fin_cases hf <;> exact Or.inl (by rfl))
      (Or.inl (by rfl))
  rw [hout]
  exact ⟨rfl, hvt⟩

set_option maxRecDepth 200000 in
/-- C5 counterexample: a record satisfying every hypothesis the claim
lists — seven correctly-typed required fields, dotted-quad addresses,
allowed event type and severity, in-window timestamp — but whose
`event_id` is 129 characters long, is rejected by the length check
instead of validating; the claim's hypothesis list is missing the length
bounds. -/
theorem C5_counterexample :
    (match validateRecord 1704103200 1704103200 1704103200
        [("event_id", .str ⟨List.replicate 129 'a'⟩),
         ("event_time", .str "2024-01-01T10:00:00Z"),
         ("source_ip", .str "45.19.34.10"),
         ("destination_ip", .str "10.0.0.5"),
         ("event_type", .str "port_scan"),
         ("severity", .str "high"),
         ("message", .str "test")] with
     | .error (e, _) => some e.emsg
     | .ok _ => Option.none)
      = some "event_id length must be between 1 and 128 characters" := by rfl

theorem atomicVals_getVal {r : PyRec} {k : String} {v : PyVal}
    (hr : atomicVals r) (h : getVal r k = some v) : isAtomic v = true := by
  induction r with
  | nil => simp [getVal] at h
  | cons p rest ih =>
    by_cases hp : p.1 = k
    · simp only [getVal, hp, if_pos] at h
      cases h
      exact hr p (by simp)
    · simp only [getVal, hp, if_neg, not_false_iff] at h
      exact ih (fun q hq => hr q (by simp [hq])) h

theorem setValGo_atomic {r : PyRec} {k : String} {v : PyVal}
    (hr : atomicVals r) (hv : isAtomic v = true) : atomicVals (setValGo r k v) := by
  induction r with
  | nil => simp [setValGo, atomicVals]
  | cons p rest ih =>
    intro q hq
    unfold setValGo at hq
    rcases List.mem_cons.mp hq with hq | hq
    · by_cases hp : p.1 = k
      · rw [if_pos hp] at hq; rw [hq]; exact hv
      · rw [if_neg hp] at hq; rw [hq]; exact hr p (by simp)
    · exact ih (fun q' hq' => hr q' (by simp [hq'])) q hq

theorem atomicVals_setVal {r : PyRec} {k : String} {v : PyVal}
    (hr : atomicVals r) (hv : isAtomic v = true) : atomicVals (setVal r k v) := by
  unfold setVal
  split
  · exact setValGo_atomic hr hv
  · intro q hq
    rcases List.mem_append.mp hq with hq | hq
    · exact hr q hq
    · simp at hq; rw [hq]; exact hv

theorem optStep_atomic_ok {r r' : PyRec} {f : String}
    (hr : atomicVals r) (h : optStep r f = .ok r') : atomicVals r' := by
  unfold optStep at h
  rcases hg : getVal r f with _ | v
  · rw [hg] at h; cases h; exact atomicVals_setVal hr (by rfl)
  · rw [hg] at h
    cases v with
    | str s => cases h; exact atomicVals_setVal hr (by rfl)
    | int n => cases h
    | bool b => cases h
    | none => cases h
    | dt t o => cases h
    | list xs => cases h
    | dict es => cases h

theorem optStep_atomic_err {r s : PyRec} {f : String} {e : PyErr}
    (hr : atomicVals r) (h : optStep r f = .error (e, s)) : atomicVals s := by
  unfold optStep at h
  rcases hg : getVal r f with _ | v
  · rw [hg] at h; cases h
  · rw [hg] at h
    cases v with
    | str s2 => cases h
    | int n => cases h; exact hr
    | bool b => cases h; exact hr
    | none => cases h; exact hr
    | dt t o => cases h; exact hr
    | list xs => cases h; exact hr
    | dict es => cases h; exact hr

theorem optPassGo_atomic :
    ∀ (fields : List String) (r : PyRec), atomicVals r →
      (∀ r', optPassGo r fields = .ok r' → atomicVals r') ∧
      (∀ e s, optPassGo r fields = .error (e, s) → atomicVals s) := by
  intro fields
  induction fields with
  | nil =>
    intro r hr
    exact ⟨fun r' h => by cases h; exact hr, fun e s h => by cases h⟩
  | cons f fs ih =>
    intro r hr
    constructor
    · intro r' h
      unfold optPassGo at h
      rcases hs : optStep r f with epair | rn
      · rw [hs] at h; cases h
      · rw [hs] at h
        exact (ih rn (optStep_atomic_ok hr hs)).1 r' h
    · intro e s h
      unfold optPassGo at h
      rcases hs : optStep r f with epair | rn
      · rw [hs] at h
        cases h
        exact optStep_atomic_err hr hs
      · rw [hs] at h
        exact (ih rn (optStep_atomic_ok hr hs)).2 e s h

theorem normStep_atomic {r r' : PyRec} {k : String} {tr : String → String}
    (hr : atomicVals r) (h : normStep r k tr = .ok r') : atomicVals r' := by
  obtain ⟨v, _, rfl⟩ := normStep_ok_inv h
  exact atomicVals_setVal hr (by rfl)

theorem normReq_atomic {r1 : PyRec} (hr : atomicVals r1) :
    (∀ r2, normReq r1 = .ok r2 → atomicVals r2) ∧
    (∀ e s, normReq r1 = .error (e, s) → atomicVals s) := by
  have hstep : ∀ (r : PyRec) (k : String) (tr : String → String) (e : PyErr)
      (s : PyRec), atomicVals r → normStep r k tr = .error (e, s) → atomicVals s := by
    intro r k tr e s hra h
    unfold normStep at h
    rcases hg : getVal r k with _ | v
    · rw [hg] at h; cases h; exact hra
    · rw [hg] at h; cases h
  constructor
  · intro r2 h
    unfold normReq at h
    split at h
    · cases h
    rename_i rA hA
    split at h
    · cases h
    rename_i rB hB
    split at h
    · cases h
    rename_i rC hC
    split at h
    · cases h
    rename_i rD hD
    split at h
    · cases h
    rename_i rE hE
    split at h
    · cases h
    rename_i rF hF
    exact normStep_atomic (normStep_atomic (normStep_atomic (normStep_atomic
      (normStep_atomic (normStep_atomic (normStep_atomic hr hA) hB) hC) hD) hE) hF) h
  · intro e s h
    unfold normReq at h
    split at h
    · rename_i eA hA
      cases h
      exact hstep _ _ _ _ _ hr hA
    rename_i rA hA
    have a1 := normStep_atomic hr hA
    split at h
    · rename_i eB hB
      cases h
      exact hstep _ _ _ _ _ a1 hB
    rename_i rB hB
    have a2 := normStep_atomic a1 hB
    split at h
    · rename_i eC hC
      cases h
      exact hstep _ _ _ _ _ a2 hC
    rename_i rC hC
    have a3 := normStep_atomic a2 hC
    split at h
    · rename_i eD hD
      cases h
      exact hstep _ _ _ _ _ a3 hD
    rename_i rD hD
    have a4 := normStep_atomic a3 hD
    split at h
    · rename_i eE hE
      cases h
      exact hstep _ _ _ _ _ a4 hE
    rename_i rE hE
    have a5 := normStep_atomic a4 hE
    split at h
    · rename_i eF hF
      cases h
      exact hstep _ _ _ _ _ a5 hF
    rename_i rF hF
    have a6 := normStep_atomic a5 hF
    exact hstep _ _ _ _ _ a6 h

theorem enrich_atomic_err {r : PyRec} {tN tP : Int} {e : PyErr} {s : PyRec}
    (hr : atomicVals r) (h : enrich r tN tP = .error (e, s)) : atomicVals s := by
  have a1 : atomicVals (setVal r "normalized_at" (.str (dtIso tN (some 0)))) :=
    atomicVals_setVal hr (by rfl)
  unfold enrich at h
  split at h
  · cases h; exact a1
  rename_i sv hsv
  have asv : isAtomic sv = true := atomicVals_getVal a1 hsv
  have a2 : atomicVals (setVal (setVal r "normalized_at" (.str (dtIso tN (some 0))))
      "severity_level" sv) := atomicVals_setVal a1 asv
  split at h
  · cases h; exact a2
  rename_i ev hev
  have aev : isAtomic ev = true := atomicVals_getVal a2 hev
  have a3 : atomicVals (setVal (setVal (setVal r "normalized_at"
      (.str (dtIso tN (some 0)))) "severity_level" sv) "category" ev) :=
    atomicVals_setVal a2 aev
  split at h
  · cases h; exact a3
  · cases h
  · cases h; exact a3

/-- Any state in which `validate_raw_event` leaves a record it rejects
still has only scalar values, when the input did. -/
theorem validateRecord_atomic_err {now tN tP : Int} {r s : PyRec} {e : PyErr}
    (hr : atomicVals r) (h : validateRecord now tN tP r = .error (e, s)) :
    atomicVals s := by
  unfold validateRecord at h
  split at h
  · cases h; exact hr
  split at h
  · cases h; exact hr
  split at h
  · rename_i epair hopt
    cases h
    exact (optPassGo_atomic optional_string_fields r hr).2 _ _ hopt
  rename_i r1 hopt
  have a1 : atomicVals r1 := (optPassGo_atomic optional_string_fields r hr).1 r1 hopt
  split at h
  · cases h; exact a1
  split at h
  · cases h; exact a1
  split at h
  · rename_i epair hnorm
    cases h
    exact (normReq_atomic a1).2 _ _ hnorm
  rename_i r2 hnorm
  have a2 : atomicVals r2 := (normReq_atomic a1).1 r2 hnorm
  split at h
  · cases h; exact a2
  split at h
  · cases h; exact a2
  split at h
  · cases h; exact a2
  split at h
  · cases h; exact a2
  split at h
  · cases h; exact a2
  split at h
  · cases h; exact a2
  split at h
  · cases h; exact a2
  exact enrich_atomic_err a2 h

theorem jsonDumpsF_atomic {v : PyVal} {f : Nat}
    (hv : isAtomic v = true) (hf : 1 ≤ f) : ∃ s, jsonDumpsF f v = some s := by
  rcases f with _ | f
  · omega
  · cases v with
    | str s => exact ⟨_, rfl⟩
    | int n => exact ⟨_, rfl⟩
    | bool b => exact ⟨_, rfl⟩
    | none => exact ⟨_, rfl⟩
    | dt t o => simp [isAtomic] at hv
    | list xs => simp [isAtomic] at hv
    | dict es => simp [isAtomic] at hv

theorem seqOption_some {l : List (Option String)}
    (h : ∀ o ∈ l, ∃ s, o = some s) : ∃ out, seqOption l = some out := by
  induction l with
  | nil => exact ⟨[], rfl⟩
  | cons o rest ih =>
    obtain ⟨out, hout⟩ := ih (fun q hq => h q (by simp [hq]))
    obtain ⟨s, hs⟩ := h o (by simp)
    subst hs
    exact ⟨s :: out, by unfold seqOption; rw [hout]; rfl⟩

theorem jsonDumpsF_dict_atomic {es : PyRec} {f : Nat}
    (hv : atomicVals es) (hf : 2 ≤ f) :
    ∃ s, jsonDumpsF f (.dict es) = some s := by
  rcases f with _ | f
  · omega
  have hf1 : 1 ≤ f := by omega
  obtain ⟨parts, hparts⟩ := seqOption_some
    (l := es.map (fun p => (jsonDumpsF f p.2).map (fun v => "\"" ++ p.1 ++ "\": " ++ v)))
    (by
      intro o ho
      obtain ⟨p, hp, rfl⟩ := List.mem_map.mp ho
      obtain ⟨s, hs⟩ := jsonDumpsF_atomic (hv p hp) hf1
      exact ⟨_, by rw [hs]; rfl⟩)
  refine ⟨"\x7b" ++ String.intercalate ", " parts ++ "\x7d", ?_⟩
  unfold jsonDumpsF
  rw [hparts]
  rfl

/-- The rejection handler's strict `json.dumps` succeeds on any record
with scalar values, so `build_validation_error_record` returns a
rejection record. -/
theorem build_validation_error_record_ok {s : PyRec} {e : PyErr} {tLog : Int}
    (hs : atomicVals s) :
    ∃ rec, build_validation_error_record s e tLog = .ok rec := by
  obtain ⟨raw, hraw⟩ := jsonDumpsF_dict_atomic (f := pyFuel) hs (by decide)
  refine ⟨[("event_id", dictGet s "event_id"),
    ("event_time", dictGet s "event_time"),
    ("source_ip", dictGet s "source_ip"),
    ("destination_ip", dictGet s "destination_ip"),
    ("raw_event", .str raw),
    ("error_type", .str e.ename),
    ("error_message", .str e.emsg),
    ("logged_at", .dt tLog (some 0))], ?_⟩
  unfold build_validation_error_record jsonDumpsStrict
  rw [hraw]

theorem ne_empty_of_truthy {s : String} (h : pyTruthy (.str s) = true) : s ≠ "" := by
  intro hs
  subst hs
  simp [pyTruthy] at h

/-- A successful step-7 pass means the (already stripped) `message` value
is truthy, i.e. a non-empty string. -/
theorem emptyChecks_ok_message {r : PyRec} {v : PyVal}
    (h : emptyChecks r = .ok ()) (hv : getVal r "message" = some v) :
    pyTruthy v = true := by
  unfold emptyChecks at h
  split at h
  · cases h
  split at h
  · cases h
  split at h
  · cases h
  split at h
  · cases h
  split at h
  · cases h
  split at h
  · cases h
  unfold emptyCheck getItem at h
  simp only [hv] at h
  cases hcv : pyTruthy v
  · rw [hcv] at h
    simp at h
  · rfl

/-- `build_staging_parsed_event` succeeds whenever the eight fields it
reads with `[]` are present. -/
theorem build_staging_ok {out : PyRec} {tF : Int} {a1 a2 a3 a4 a5 a6 a7 a8 : PyVal}
    (h1 : getVal out "event_id" = some a1)
    (h2 : getVal out "event_time" = some a2)
    (h3 : getVal out "source_ip" = some a3)
    (h4 : getVal out "destination_ip" = some a4)
    (h5 : getVal out "event_type" = some a5)
    (h6 : getVal out "severity_level" = some a6)
    (h7 : getVal out "category" = some a7)
    (h8 : getVal out "normalized_message" = some a8) :
    ∃ pr, build_staging_parsed_event out tF = .ok pr := by
  refine ⟨[("event_id", a1), ("event_time", a2), ("source_ip", a3),
    ("destination_ip", a4), ("event_type", a5), ("severity_level", a6),
    ("category", a7), ("normalized_message", a8),
    ("processed_at", pyOr (dictGet out "processed_at") (.dt tF (some 0)))], ?_⟩
  unfold build_staging_parsed_event getItem
  simp only [h1, h2, h3, h4, h5, h6, h7, h8]

/-- A record that passes the whole canonicalize/validate/normalize chain
also passes the post-transform validation and the staging build: the
`except` handler is unreachable after a successful validation. -/
theorem validateRecord_ok_post {now tN tP tF : Int} {r out : PyRec}
    (h : validateRecord now tN tP r = .ok out) :
    validate_transformation out = .ok () ∧
    ∃ pr, build_staging_parsed_event out tF = .ok pr := by
  unfold validateRecord at h
  split at h
  · cases h
  split at h
  · cases h
  split at h
  · cases h
  rename_i r1 hopt
  split at h
  · cases h
  split at h
  · cases h
  split at h
  · cases h
  rename_i r2 hnr
  split at h
  · cases h
  rename_i u hec
  cases u
  split at h
  · cases h
  rename_i tv htv
  split at h
  · cases h
  split at h
  · cases h
  split at h
  · cases h
  split at h
  · cases h
  split at h
  · cases h
  obtain ⟨v1, v2, v3, v4, v5, v6, v7, _, _, _, _, _, _, _,
    q1, q2, q3, q4, q5, q6, q7, _⟩ := normReq_ok_fields hnr
  have hmsg_ne : pyStrip (pyStr v7) ≠ "" :=
    ne_empty_of_truthy (emptyChecks_ok_message hec q7)
  obtain ⟨out2, henr, f1, f2, f3, f4, f5, f6, f7, funt⟩ :=
    @enrich_ok_of_fields r2 tN tP _ _ _ q6 q5 q7
  rw [henr] at h
  injection h with hout
  subst hout
  have heid : getVal out2 "event_id" = some (.str (pyStrip (pyStr v1))) :=
    (funt "event_id" (by decide)).trans q1
  have het : getVal out2 "event_time" = some (.str (pyStrip (pyStr v2))) :=
    (funt "event_time" (by decide)).trans q2
  have hsip : getVal out2 "source_ip" = some (.str (pyStrip (pyStr v3))) :=
    (funt "source_ip" (by decide)).trans q3
  have hdip : getVal out2 "destination_ip" = some (.str (pyStrip (pyStr v4))) :=
    (funt "destination_ip" (by decide)).trans q4
  have hnm2 : pyStrip (pyStrip (pyStrip (pyStr v7))) ≠ "" := by
    rw [pyStrip_idem, pyStrip_idem]
    exact hmsg_ne
  constructor
  · exact validate_transformation_ok heid het hsip hdip f4 f2 f1 f3 f5 hnm2 f6
  · exact build_staging_ok heid het hsip hdip f4 f1 f3 f5

theorem dictGet_atomic {r : PyRec} (hr : atomicVals r) (k : String) :
    isAtomic (dictGet r k) = true := by
  unfold dictGet
  rcases hg : getVal r k with _ | v
  · rfl
  · exact atomicVals_getVal hr hg

theorem pyOr_atomic {a b : PyVal} (ha : isAtomic a = true) (hb : isAtomic b = true) :
    isAtomic (pyOr a b) = true := by
  unfold pyOr
  split
  · exact ha
  · exact hb

theorem jsonDumpsDefF_atomic {v : PyVal} {f : Nat}
    (hv : isAtomic v = true) (hf : 1 ≤ f) : ∃ s, jsonDumpsDefF f v = some s := by
  rcases f with _ | f
  · omega
  · cases v with
    | str s => exact ⟨_, rfl⟩
    | int n => exact ⟨_, rfl⟩
    | bool b => exact ⟨_, rfl⟩
    | none => exact ⟨_, rfl⟩
    | dt t o => simp [isAtomic] at hv
    | list xs => simp [isAtomic] at hv
    | dict es => simp [isAtomic] at hv

/-- `json.dumps(event, default=str)` succeeds on a mapping with scalar
values. -/
theorem jsonDumpsDefF_dict_atomic {es : PyRec} {f : Nat}
    (hv : atomicVals es) (hf : 2 ≤ f) :
    ∃ s, jsonDumpsDefF f (.dict es) = some s := by
  rcases f with _ | f
  · omega
  have hf1 : 1 ≤ f := by omega
  obtain ⟨parts, hparts⟩ := seqOption_some
    (l := es.map (fun p => (jsonDumpsDefF f p.2).map (fun v => "\"" ++ p.1 ++ "\": " ++ v)))
    (by
      intro o ho
      obtain ⟨p, hp, rfl⟩ := List.mem_map.mp ho
      obtain ⟨s, hs⟩ := jsonDumpsDefF_atomic (hv p hp) hf1
      exact ⟨_, by rw [hs]; rfl⟩)
  refine ⟨"\x7b" ++ String.intercalate ", " parts ++ "\x7d", ?_⟩
  unfold jsonDumpsDefF
  rw [hparts]
  rfl

/-- `build_raw_security_log` succeeds on a mapping event with scalar
values, and the canonical record it builds again has only scalar
values. -/
theorem build_raw_security_log_ok {d : PyRec} (hd : atomicVals d) (batchId : String) :
    ∃ c0, build_raw_security_log (.dict d) batchId = .ok c0 ∧ atomicVals c0 := by
  obtain ⟨payload, hp⟩ := jsonDumpsDefF_dict_atomic (f := pyFuel) hd (by decide)
  refine ⟨[("batch_id", .str batchId),
    ("event_id", dictGet d "event_id"),
    ("event_time", dictGet d "timestamp"),
    ("source_ip", dictGet d "source_ip"),
    ("destination_ip", dictGet d "destination_ip"),
    ("event_type", dictGet d "event_type"),
    ("severity", dictGet d "severity"),
    ("message", pyOr (dictGet d "description") (.str "No message provided")),
    ("raw_payload", .str payload)], ?_, ?_⟩
  · unfold build_raw_security_log jsonDumpsDefaultStr
    simp only [hp]
  · intro p hp2
    simp only [List.mem_cons, List.not_mem_nil, or_false] at hp2
    rcases hp2 with rfl | rfl | rfl | rfl | rfl | rfl | rfl | rfl | rfl
    · rfl
    · exact dictGet_atomic hd _
    · exact dictGet_atomic hd _
    · exact dictGet_atomic hd _
    · exact dictGet_atomic hd _
    · exact dictGet_atomic hd _
    · exact dictGet_atomic hd _
    · exact pyOr_atomic (dictGet_atomic hd _) rfl
    · rfl

/-- The `except` handler succeeds when the failing event is a mapping and
the `canonical_event` binding holds a scalar-valued record. -/
theorem handleRecordFailure_dict_ok (d c : PyRec) (e : PyErr) (tLog : Int)
    (hc : atomicVals c) :
    ∃ rec, handleRecordFailure (.dict d) (some c) e tLog = .ok rec := by
  obtain ⟨rec, hrec⟩ := build_validation_error_record_ok (e := e) hc
  exact ⟨rec, by unfold handleRecordFailure; exact hrec⟩

/-- One loop iteration on a mapping event with scalar values either
yields a staging record or fails with an exception *and* a captured
scalar-valued `canonical_event` for the handler. -/
theorem tryProcessEvent_step (now tN tP tF : Int) (batchId : String) (d : PyRec)
    (hd : atomicVals d) :
    (∃ pc, tryProcessEvent now tN tP tF batchId (.dict d) = .ok pc) ∨
    (∃ e c, tryProcessEvent now tN tP tF batchId (.dict d) = .error (e, some c) ∧
      atomicVals c) := by
  obtain ⟨c0, hb, hc0⟩ := build_raw_security_log_ok hd batchId
  cases hv : canonValidateNormalize now tN tP c0 with
  | error ep =>
    obtain ⟨e, s⟩ := ep
    refine Or.inr ⟨e, s, ?_, validateRecord_atomic_err hc0 hv⟩
    unfold tryProcessEvent
    simp only [hb, hv]
  | ok c1 =>
    obtain ⟨hvt, pr, hbs⟩ := @validateRecord_ok_post now tN tP tF c0 c1 hv
    refine Or.inl ⟨(pr, c1), ?_⟩
    unfold tryProcessEvent
    simp only [hb, hv, hbs, hvt]

/-- The per-event loop never aborts on a batch of scalar-valued mapping
events: it returns two lists whose lengths sum to the number of events. -/
theorem runBatchGo_total (now tN tP tF tLog : Int) (batchId : String) :
    ∀ (events : List PyVal) (lastCanon : Option PyRec),
      (∀ ev ∈ events, ∃ d, ev = .dict d ∧ atomicVals d) →
      ∃ v i, runBatchGo now tN tP tF tLog batchId events lastCanon = .ok (v, i) ∧
        v.length + i.length = events.length := by
  intro events
  induction events with
  | nil => exact fun _ _ => ⟨[], [], rfl, rfl⟩
  | cons ev rest ih =>
    intro lastCanon hall
    obtain ⟨d, rfl, hd⟩ := hall ev (by simp)
    have hrest : ∀ e2 ∈ rest, ∃ d2, e2 = .dict d2 ∧ atomicVals d2 :=
      fun e2 he2 => hall e2 (List.mem_cons_of_mem _ he2)
    rcases tryProcessEvent_step now tN tP tF batchId d hd with
      ⟨⟨parsed, c1⟩, hstep⟩ | ⟨e, c, hstep, hc⟩
    · obtain ⟨v, i, hih, hlen⟩ := ih (some c1) hrest
      refine ⟨parsed :: v, i, ?_, ?_⟩
      · unfold runBatchGo
        simp only [hstep, hih]
      · simp only [List.length_cons]
        omega
    · obtain ⟨rec, hrec⟩ := handleRecordFailure_dict_ok d c e tLog hc
      obtain ⟨v, i, hih, hlen⟩ := ih (some c) hrest
      refine ⟨v, rec :: i, ?_, ?_⟩
      · unfold runBatchGo
        simp only [hstep, hrec, hih]
      · simp only [List.length_cons]
        omega

theorem atomicVals_of_B {r : PyRec} (h : atomicValsB r = true) : atomicVals r :=
  fun p hp => List.all_eq_true.mp h p hp

/-- C1 (corrected): restricted to batches whose events are all mapping
(JSON-object) records holding only scalar values (strings, numbers,
booleans, null), every error raised while canonicalizing, validating or
normalizing a record is caught at the per-record boundary and converted
into a rejection record, and the run ends with two result lists whose
sizes sum to the batch size. The restriction is necessary: on a
non-mapping event the handler itself raises (AttributeError from
raw_event.get) and aborts the remaining records, and a captured record
with a non-JSON-serializable value breaks the strict json.dumps of the
rejection builder. -/
theorem C1_batch_completeness {now tN tP tF tLog : Int} {batchId : String}
    {events : List PyVal}
    (h : ∀ ev ∈ events, ∃ d, ev = .dict d ∧ atomicVals d) :
    ∃ v i, run_transform_for_batch now tN tP tF tLog batchId events = .ok (v, i) ∧
      v.length + i.length = events.length := by
  unfold run_transform_for_batch
  exact runBatchGo_total now tN tP tF tLog batchId events Option.none h

theorem C1_witness :
    ∃ v i,
      run_transform_for_batch 1704103200 1704103200 1704103200 1704103200 1704103200
        "b1" [.dict c1goodRec, .dict c1badRec] = .ok (v, i) ∧
      v.length + i.length = 2 :=
  C1_batch_completeness (by
    intro ev hev
    simp only [List.mem_cons, List.not_mem_nil, or_false] at hev
    rcases hev with rfl | rfl
    · exact ⟨c1goodRec, rfl, atomicVals_of_B (by rfl)⟩
    · exact ⟨c1badRec, rfl, atomicVals_of_B (by rfl)⟩)

set_option maxRecDepth 40000 in
/-- A single non-mapping event aborts the whole batch: the handler calls
raw_event.get on it and the AttributeError escapes the loop. -/
theorem C1_counterexample :
    run_transform_for_batch 1704103200 1704103200 1704103200 0 0 "b1" [.int 5] =
      .error (pyAttributeError ("object has no attribute " ++ squote ++ "get" ++ squote)) := by
  rfl
